import Mathlib

/-!
# Verification of the PSDI data-collections-API client

A shallow embedding, in Lean 4, of the parts of the
`data_collections_api` Python package that the verified claims touch:

* `invenio.py` — the `_check` HTTP result checker, the handle hierarchy's
  request construction (`access_token` injection), `_Files.upload`,
  `_Files.download`, `_File.download`, and the `InvenioRepository`
  constructor's URL normalization;
* `schemas/base.py` / `base_schema.py` — the declarative metadata schema,
  embedded together with the semantics of the `schema` PyPI library
  (dict validation, `Optional` defaults, `ignore_extra_keys`, `Or`,
  `Regex` via `re.search`, `And`/`Use` chains) and of
  `urllib.parse.urlparse`/`urlunparse` as used by the DOI identifier rule.

JSON-like Python values are modelled by `Json`; Python dicts by
association lists in insertion order.
-/

/-- JSON-like Python value (as produced by the JSON/YAML loaders). -/
inductive Json where
  | str : String → Json
  | num : Int → Json
  | bool : Bool → Json
  | null : Json
  | arr : List Json → Json
  | obj : List (String × Json) → Json

/-! ## URL normalization (`InvenioRepository.__init__`)

Source (`invenio.py`):
`self.url = URL(url.strip("/").removesuffix("/api") + "/api")`.
-/

/-- Python `str.strip(c)`: remove all leading and trailing occurrences of `c`. -/
def pyStrip (c : Char) (l : List Char) : List Char :=
  ((l.dropWhile (· == c)).reverse.dropWhile (· == c)).reverse

/-- Python `str.removesuffix(suf)`: drop `suf` from the end if present. -/
def removeSuffix (l suf : List Char) : List Char :=
  if suf.isSuffixOf l then l.take (l.length - suf.length) else l

/-- The `"/api"` suffix appended by the constructor. -/
def apiSuffix : List Char := "/api".toList

/-- `InvenioRepository.__init__` URL normalization:
`url.strip("/").removesuffix("/api") + "/api"`. -/
def initUrl (url : String) : String :=
  String.mk (removeSuffix (pyStrip '/' url.toList) apiSuffix ++ apiSuffix)

/-! ## HTTP result checker (`_check` in `invenio.py`) -/

/-- A completed HTTP response: status code, parsed JSON body (what
`.json()` returns) and raw content bytes (what `.content` returns). -/
structure Response where
  status : Nat
  body : Json
  content : List Nat

/-- Python exceptions that the embedded operations can raise. -/
inductive PyErr where
  | httpError (msg : String)
  | keyError (key : String)
  | typeError (msg : String)
  | attributeError (msg : String)
  | osError (msg : String)

mutual

/-- Python `repr()` of a JSON-like value (element rendering inside
`str()` of containers). -/
def pyRepr : Json → String
  | .str s => "'" ++ s ++ "'"
  | .num n => toString n
  | .bool true => "True"
  | .bool false => "False"
  | .null => "None"
  | .arr xs => "[" ++ pyReprList xs ++ "]"
  | .obj kvs => "\x7b" ++ pyReprObj kvs ++ "\x7d"

/-- Comma-separated `repr()`s of list elements. -/
def pyReprList : List Json → String
  | [] => ""
  | [x] => pyRepr x
  | x :: xs => pyRepr x ++ ", " ++ pyReprList xs

/-- Comma-separated `repr()`s of dict items. -/
def pyReprObj : List (String × Json) → String
  | [] => ""
  | [(k, v)] => "'" ++ k ++ "': " ++ pyRepr v
  | (k, v) :: kvs => "'" ++ k ++ "': " ++ pyRepr v ++ ", " ++ pyReprObj kvs

end

/-- Python `str()` of a JSON-like value, as interpolated by an f-string:
a string interpolates as itself, other values as their `repr`. -/
def pyStr : Json → String
  | .str s => s
  | j => pyRepr j

/-- `requests.Response.raise_for_status` raises exactly for
`400 <= status < 600`. -/
def isErrorStatus (status : Nat) : Bool := 400 ≤ status && status < 600

/-- `_check(request, proc)` (`invenio.py`): on success return the parsed
JSON body; on failure status raise `HTTPError` with the message
`f"Error while {proc}, info: {request.json()['message']}"` (a missing
`message` key or a non-dict body raises the corresponding
`KeyError`/`TypeError` instead). -/
def check (r : Response) (proc : String) : Except PyErr Json :=
  if isErrorStatus r.status then
    match r.body with
    | .obj kvs =>
      match kvs.lookup "message" with
      | some m => .error (.httpError ("Error while " ++ proc ++ ", info: " ++ pyStr m))
      | none => .error (.keyError "message")
    | _ => .error (.typeError "response body is not a dict")
  else
    .ok r.body

/-! ## Request construction by the handle hierarchy (`invenio.py`) -/

/-- HTTP method of an issued request. -/
inductive Method where
  | get | post | put | delete
deriving DecidableEq

/-- Body of an issued request. -/
inductive ReqBody where
  | empty : ReqBody
  | jsonData : Json → ReqBody
  | fileBytes : List Nat → ReqBody

/-- One HTTP request as issued through `requests.<method>(...)`. -/
structure Request where
  method : Method
  url : String
  params : List (String × String)
  headers : List (String × String)
  body : ReqBody

/-- Python dict merge `{**params, "access_token": self.api_key}`: an
existing `access_token` entry is overridden in place, otherwise the entry
is appended at the end. -/
def withToken (extra : List (String × String)) (tok : String) :
    List (String × String) :=
  if extra.any (fun kv => kv.1 == "access_token") then
    extra.map (fun kv => if kv.1 == "access_token" then (kv.1, tok) else kv)
  else
    extra ++ [("access_token", tok)]

/-- A request carries the credential as `access_token` query parameter. -/
def carriesToken (r : Request) (tok : String) : Prop :=
  r.params.lookup "access_token" = some tok

/-- `Content-Type: application/json` header. -/
def jsonHeader : List (String × String) := [("Content-Type", "application/json")]

/-- `Content-Type: application/octet-stream` header. -/
def octetHeader : List (String × String) :=
  [("Content-Type", "application/octet-stream")]

/-- `_AllRecords.api_url = f"{self.url}/records"`. -/
def allRecordsUrl (base : String) : String := base ++ "/records"

/-- `_Record.api_url = f"{self.parent.api_url}/{self.rec_id}"`. -/
def recordUrl (base recId : String) : String :=
  allRecordsUrl base ++ "/" ++ recId

/-- `_Draft.api_url = f"{self.parent.url}/records/{self.rec_id}/draft"`. -/
def draftUrl (base recId : String) : String :=
  base ++ "/records/" ++ recId ++ "/draft"

/-- `_Files.api_url = f"{self.parent.api_url}/files"`. -/
def filesUrl (parentApiUrl : String) : String := parentApiUrl ++ "/files"

/-- `_File.api_url = f"{self.parent.api_url}/{self.name}"`. -/
def fileUrl (filesApiUrl name : String) : String := filesApiUrl ++ "/" ++ name

/-- `_Licenses.api_url = f"{self.url}/licenses"`. -/
def licensesUrl (base : String) : String := base ++ "/licenses"

/-- `_File.info`: GET on the file URL. -/
def fileInfoRequest (filesApiUrl name tok : String)
    (extra : List (String × String)) : Request :=
  ⟨.get, fileUrl filesApiUrl name, withToken extra tok, [], .empty⟩

/-- `_File.update`: PUT of `{"name": file.name}` to the file URL. -/
def fileUpdateRequest (filesApiUrl name tok fileName : String)
    (extra : List (String × String)) : Request :=
  ⟨.put, fileUrl filesApiUrl name, withToken extra tok, jsonHeader,
    .jsonData (.obj [("name", .str fileName)])⟩

/-- `_File.download`: GET of `f"{link}/content"`. -/
def fileContentRequest (link tok : String)
    (extra : List (String × String)) : Request :=
  ⟨.get, link ++ "/content", withToken extra tok, [], .empty⟩

/-- `_File.delete`: DELETE on the file URL. -/
def fileDeleteRequest (filesApiUrl name tok : String)
    (extra : List (String × String)) : Request :=
  ⟨.delete, fileUrl filesApiUrl name, withToken extra tok, jsonHeader, .empty⟩

/-- `_File.upload`: PUT of the raw bytes to `f"{self.bucket_url}/{self.name}"`. -/
def fileUploadRequest (bucketUrl name tok : String)
    (extra : List (String × String)) (bytes : List Nat) : Request :=
  ⟨.put, bucketUrl ++ "/" ++ name, withToken extra tok, [], .fileBytes bytes⟩

/-- `_Files.list`: GET on the fileset URL. -/
def filesListRequest (parentApiUrl tok : String)
    (extra : List (String × String)) : Request :=
  ⟨.get, filesUrl parentApiUrl, withToken extra tok, [], .empty⟩

/-- `_Files.sort`: PUT of the sorted ids to the fileset URL. -/
def filesSortRequest (parentApiUrl tok : String)
    (extra : List (String × String)) (sortedIds : Json) : Request :=
  ⟨.put, filesUrl parentApiUrl, withToken extra tok, jsonHeader,
    .jsonData sortedIds⟩

/-- `_Files.upload` step (a): POST of `[{"key": name}]` to the fileset URL. -/
def uploadInitRequest (parentApiUrl tok name : String)
    (extra : List (String × String)) : Request :=
  ⟨.post, filesUrl parentApiUrl, withToken extra tok, jsonHeader,
    .jsonData (.arr [.obj [("key", .str name)]])⟩

/-- `_Files.upload` step (b): PUT of the raw bytes to
`f"{self.api_url}/{name}/content"`. -/
def uploadContentRequest (parentApiUrl tok name : String)
    (extra : List (String × String)) (bytes : List Nat) : Request :=
  ⟨.put, filesUrl parentApiUrl ++ "/" ++ name ++ "/content",
    withToken extra tok, octetHeader, .fileBytes bytes⟩

/-- `_Files.upload` step (c): POST to `f"{self.api_url}/{name}/commit"`. -/
def uploadCommitRequest (parentApiUrl tok name : String)
    (extra : List (String × String)) : Request :=
  ⟨.post, filesUrl parentApiUrl ++ "/" ++ name ++ "/commit",
    withToken extra tok, [], .empty⟩

/-- `_Draft.get`: GET on the draft URL. -/
def draftGetRequest (base recId tok : String)
    (extra : List (String × String)) : Request :=
  ⟨.get, draftUrl base recId, withToken extra tok, [], .empty⟩

/-- `_Draft.update`: PUT of the dumped data to the draft URL. -/
def draftUpdateRequest (base recId tok : String)
    (extra : List (String × String)) (data : Json) : Request :=
  ⟨.put, draftUrl base recId, withToken extra tok, jsonHeader, .jsonData data⟩

/-- `_Draft.delete`: DELETE on the draft URL. -/
def draftDeleteRequest (base recId tok : String)
    (extra : List (String × String)) : Request :=
  ⟨.delete, draftUrl base recId, withToken extra tok, [], .empty⟩

/-- `_Draft.bind`, first request: GET of
`f"{self.url}/communities/{community_slug}"` — issued with no `params`
argument at all. -/
def bindResolveRequest (base slug : String) : Request :=
  ⟨.get, base ++ "/communities/" ++ slug, [], [], .empty⟩

/-- `_Draft.bind`, second request: PUT of the review body to
`f"{self.api_url}/review"`. -/
def bindReviewRequest (base recId tok communityId : String)
    (extra : List (String × String)) : Request :=
  ⟨.put, draftUrl base recId ++ "/review", withToken extra tok, [],
    .jsonData (.obj [("receiver", .obj [("community", .str communityId)]),
      ("type", .str "community-submission")])⟩

/-- `_Draft.publish`: POST to `f"{self.api_url}/actions/publish"`. -/
def draftPublishRequest (base recId tok : String)
    (extra : List (String × String)) : Request :=
  ⟨.post, draftUrl base recId ++ "/actions/publish", withToken extra tok,
    [], .empty⟩

/-- `_Draft.submit_review`: POST to `f"{self.api_url}/actions/submit-review"`. -/
def draftSubmitReviewRequest (base recId tok : String)
    (extra : List (String × String)) : Request :=
  ⟨.post, draftUrl base recId ++ "/actions/submit-review",
    withToken extra tok, [], .empty⟩

/-- `_Record.get`: GET on the record URL. -/
def recordGetRequest (base recId tok : String)
    (extra : List (String × String)) : Request :=
  ⟨.get, recordUrl base recId, withToken extra tok, [], .empty⟩

/-- `_Record.update`: PUT of the dumped data to the record URL. -/
def recordUpdateRequest (base recId tok : String)
    (extra : List (String × String)) (data : Json) : Request :=
  ⟨.put, recordUrl base recId, withToken extra tok, jsonHeader,
    .jsonData data⟩

/-- `_Record.delete`: DELETE on the record URL. -/
def recordDeleteRequest (base recId tok : String)
    (extra : List (String × String)) : Request :=
  ⟨.delete, recordUrl base recId, withToken extra tok, [], .empty⟩

/-- `_Record.publish`: POST to `f"{self.api_url}/actions/publish"`. -/
def recordPublishRequest (base recId tok : String)
    (extra : List (String × String)) : Request :=
  ⟨.post, recordUrl base recId ++ "/actions/publish", withToken extra tok,
    [], .empty⟩

/-- `_Record.edit`: POST to `f"{self.parent.url}/records/{self.rec_id}/draft"`. -/
def recordEditRequest (base recId tok : String)
    (extra : List (String × String)) : Request :=
  ⟨.post, draftUrl base recId, withToken extra tok, [], .empty⟩

/-- `_Record.discard`: POST to `f"{self.api_url}/actions/discard"`. -/
def recordDiscardRequest (base recId tok : String)
    (extra : List (String × String)) : Request :=
  ⟨.post, recordUrl base recId ++ "/actions/discard", withToken extra tok,
    [], .empty⟩

/-- `_Record.new_version`: POST to `f"{self.api_url}/actions/newversion"`. -/
def recordNewVersionRequest (base recId tok : String)
    (extra : List (String × String)) : Request :=
  ⟨.post, recordUrl base recId ++ "/actions/newversion",
    withToken extra tok, [], .empty⟩

/-- `_AllRecords.get`: GET of `f"{self.api_url}/{rec_id}"`. -/
def allRecordsGetRequest (base recId tok : String)
    (extra : List (String × String)) : Request :=
  ⟨.get, allRecordsUrl base ++ "/" ++ recId, withToken extra tok, [], .empty⟩

/-- `_AllRecords.draft`: GET of `f"{self.api_url}/{rec_id}/draft"`. -/
def allRecordsDraftRequest (base recId tok : String)
    (extra : List (String × String)) : Request :=
  ⟨.get, allRecordsUrl base ++ "/" ++ recId ++ "/draft",
    withToken extra tok, [], .empty⟩

/-- `_AllRecords.create`: POST of `{}` to `f"{self.url}/records"`. -/
def allRecordsCreateRequest (base tok : String)
    (extra : List (String × String)) : Request :=
  ⟨.post, base ++ "/records", withToken extra tok, jsonHeader,
    .jsonData (.obj [])⟩

/-- `_AllRecords.list`: GET on the records URL. -/
def allRecordsListRequest (base tok : String)
    (extra : List (String × String)) : Request :=
  ⟨.get, allRecordsUrl base, withToken extra tok, [], .empty⟩

/-- `_Licenses.get`: GET of `f"{self.api_url}/{lic_id}"`. -/
def licensesGetRequest (base licId tok : String)
    (extra : List (String × String)) : Request :=
  ⟨.get, licensesUrl base ++ "/" ++ licId, withToken extra tok, [], .empty⟩

/-- `_Licenses.list`: GET on the licenses URL. -/
def licensesListRequest (base tok : String)
    (extra : List (String × String)) : Request :=
  ⟨.get, licensesUrl base, withToken extra tok, [], .empty⟩

/-! ## Bulk file upload (`_Files.upload` in `invenio.py`) -/

/-- `_Files.upload`: for each `(name, file)` entry of the mapping, in
order, POST `[{"key": name}]` to the fileset URL, PUT the raw bytes to
`{api_url}/{name}/content`, POST to `{api_url}/{name}/commit`, appending
each checked JSON response to the result list; a failing check raises,
stopping the iteration.  The first component records every request
actually issued, in issue order. -/
def filesUpload (parentApiUrl recId tok : String)
    (extra : List (String × String)) (files : List (String × List Nat))
    (env : Request → Response) :
    List Request × Except PyErr (List Json) :=
  match files with
  | [] => ([], .ok [])
  | (name, bytes) :: rest =>
    match check (env (uploadInitRequest parentApiUrl tok name extra))
        ("starting draft file upload for record " ++ recId) with
    | .error e => ([uploadInitRequest parentApiUrl tok name extra], .error e)
    | .ok j1 =>
      match check (env (uploadContentRequest parentApiUrl tok name extra bytes))
          ("uploading file " ++ name ++ " content to record " ++ recId) with
      | .error e => ([uploadInitRequest parentApiUrl tok name extra,
          uploadContentRequest parentApiUrl tok name extra bytes], .error e)
      | .ok j2 =>
        match check (env (uploadCommitRequest parentApiUrl tok name extra))
            ("committing file " ++ name ++ " to record " ++ recId) with
        | .error e => ([uploadInitRequest parentApiUrl tok name extra,
            uploadContentRequest parentApiUrl tok name extra bytes,
            uploadCommitRequest parentApiUrl tok name extra], .error e)
        | .ok j3 =>
          (uploadInitRequest parentApiUrl tok name extra ::
            uploadContentRequest parentApiUrl tok name extra bytes ::
            uploadCommitRequest parentApiUrl tok name extra ::
            (filesUpload parentApiUrl recId tok extra rest env).1,
           (filesUpload parentApiUrl recId tok extra rest env).2.map
            (fun l => j1 :: j2 :: j3 :: l))

/-- The full three-step request sequence `_Files.upload` is specified to
issue: init, content, commit for each entry, in mapping order. -/
def uploadRequestSeq (parentApiUrl tok : String)
    (extra : List (String × String)) (files : List (String × List Nat)) :
    List Request :=
  files.flatMap (fun nb =>
    [uploadInitRequest parentApiUrl tok nb.1 extra,
     uploadContentRequest parentApiUrl tok nb.1 extra nb.2,
     uploadCommitRequest parentApiUrl tok nb.1 extra])

/-! ## File download (`_File.download`, `_Files.download` in `invenio.py`) -/

/-- Python subscription `value[key]` on a JSON value: `KeyError` when the
key is missing, `TypeError` when the value is not a dict. -/
def jsonLookup (j : Json) (k : String) : Except PyErr Json :=
  match j with
  | .obj kvs =>
    match kvs.lookup k with
    | some v => .ok v
    | none => .error (.keyError k)
  | _ => .error (.typeError "value is not subscriptable by string")

/-- `_File.download`: fetch the file info, read `info["links"]["self"]`
and `info["key"]`, issue the content GET, fail if the destination is an
existing plain file, otherwise write the response content to
`dest / filename`, and only then pass the content response through
`_check`.  Returns the list of file writes performed together with the
result. -/
def fileDownload (filesApiUrl name recId tok : String)
    (extra : List (String × String)) (dest : String) (destIsFile : Bool)
    (env : Request → Response) :
    List (String × List Nat) × Except PyErr Json :=
  match check (env (fileInfoRequest filesApiUrl name tok extra))
      ("getting " ++ name ++ " file info from record " ++ recId) with
  | .error e => ([], .error e)
  | .ok info =>
    match jsonLookup info "links" with
    | .error e => ([], .error e)
    | .ok links =>
      match jsonLookup links "self" with
      | .error e => ([], .error e)
      | .ok linkv =>
        match jsonLookup info "key" with
        | .error e => ([], .error e)
        | .ok keyv =>
          if destIsFile then
            ([], .error (.osError
              (dest ++ " is a file which exists. Must be a directory.")))
          else
            match keyv with
            | .str filename =>
              ([(dest ++ "/" ++ filename,
                 (env (fileContentRequest (pyStr linkv) tok extra)).content)],
               check (env (fileContentRequest (pyStr linkv) tok extra))
                 ("downloading file " ++ name ++ " from record " ++ recId))
            | _ => ([], .error (.typeError "unsupported path component"))

/-- Python type name of a JSON-like value. -/
def pyTypeName : Json → String
  | .str _ => "str"
  | .num _ => "int"
  | .bool _ => "bool"
  | .null => "NoneType"
  | .arr _ => "list"
  | .obj _ => "dict"

/-- The `AttributeError` raised by calling `.json()` on a plain parsed
JSON value (none of these Python types has a `json` attribute; only
`requests.Response` does). -/
def pyJsonAttributeError (v : Json) : PyErr :=
  .attributeError ("'" ++ pyTypeName v ++ "' object has no attribute 'json'")

/-- `_Files.download` (`invenio.py`): `request = self.list(**params).json()`.
`_Files.list` already returns the parsed JSON dict produced by `_check`,
so the `.json()` call is made on a plain parsed value and raises
`AttributeError` before the iteration over files can start; the download
loop below it is unreachable. -/
def filesDownload (parentApiUrl recId tok : String)
    (extra : List (String × String)) (env : Request → Response) :
    Except PyErr (List Json) :=
  match check (env (filesListRequest parentApiUrl tok extra))
      ("listing record " ++ recId ++ " files") with
  | .error e => .error e
  | .ok listed => .error (pyJsonAttributeError listed)

/-! ## Metadata schema (`schemas/base.py`, `base_schema.py`)

The declarative schema is embedded together with the semantics of the
`schema` PyPI library: dict validation rebuilds the dict from the input
entries in order, validating each value; unmatched keys raise unless
`ignore_extra_keys` (then they are dropped from the output); missing
required keys raise; `Optional` keys with a `default` that are absent get
the default appended verbatim; `Or` tries its alternatives in order;
`Regex` uses `re.search`; a string literal matches by equality.
-/

/-- Consume exactly `n` regex `\d` digits (ASCII digits; Python's
`re` also accepts other Unicode digits, which the repository's data never
contains). -/
def takeDigits : Nat → List Char → Option (List Char)
  | 0, l => some l
  | n + 1, c :: l => if c.isDigit then takeDigits n l else none
  | _ + 1, [] => none

/-- Consume one expected literal character. -/
def expectChar (c : Char) : List Char → Option (List Char)
  | x :: l => if x = c then some l else none
  | [] => none

/-- Match `ORCID_ID_RE = (\d{4}-){3}\d{4}` at the start of the list. -/
def matchOrcidAt (l : List Char) : Bool :=
  ((((((takeDigits 4 l).bind (expectChar '-')).bind
    (takeDigits 4)).bind (expectChar '-')).bind
    (takeDigits 4)).bind (expectChar '-')).bind (takeDigits 4) |>.isSome

/-- Match `UUID_RE = \d{8}-(\d{4}-){3}\d{12}` at the start of the list. -/
def matchUuidAt (l : List Char) : Bool :=
  ((((((((takeDigits 8 l).bind (expectChar '-')).bind
    (takeDigits 4)).bind (expectChar '-')).bind
    (takeDigits 4)).bind (expectChar '-')).bind
    (takeDigits 4)).bind (expectChar '-')).bind (takeDigits 12) |>.isSome

/-- `re.search`: try to match at every start position. -/
def reSearch (m : List Char → Bool) (s : String) : Bool := s.toList.tails.any m

/-- `re.search(ORCID_ID_RE, s)` as used by `schema.Regex`. -/
def orcidSearch (s : String) : Bool := reSearch matchOrcidAt s

/-- `re.search(UUID_RE, s)` as used by `schema.Regex`. -/
def uuidSearch (s : String) : Bool := reSearch matchUuidAt s

/-- `re.search(r"^v\d+(\.\d+)*", s)`: the pattern is anchored at the
start and its tail `(\.\d+)*` can match the empty string with nothing
required after it, so a match exists iff the string starts with `v`
followed by a digit. -/
def versionSearch (s : String) : Bool :=
  match s.toList with
  | 'v' :: c :: _ => c.isDigit
  | ['v'] => false
  | _ => false

/-- Days per month as `datetime.date` accepts them. -/
def daysInMonth (y m : Nat) : Nat :=
  if m = 2 then
    if (y % 4 = 0 && !(y % 100 = 0)) || y % 400 = 0 then 29 else 28
  else if m = 4 || m = 6 || m = 9 || m = 11 then 30 else 31

/-- `datetime.date.fromisoformat` (Python 3.10): accepts exactly
`YYYY-MM-DD` with a valid calendar date, year at least 1. -/
def isoDateValid (s : String) : Bool :=
  match s.toList with
  | [y1, y2, y3, y4, '-', m1, m2, '-', d1, d2] =>
    if y1.isDigit && y2.isDigit && y3.isDigit && y4.isDigit &&
        m1.isDigit && m2.isDigit && d1.isDigit && d2.isDigit then
      let y := (y1.toNat - 48) * 1000 + (y2.toNat - 48) * 100 +
        (y3.toNat - 48) * 10 + (y4.toNat - 48)
      let m := (m1.toNat - 48) * 10 + (m2.toNat - 48)
      let d := (d1.toNat - 48) * 10 + (d2.toNat - 48)
      1 ≤ y && 1 ≤ m && m ≤ 12 && 1 ≤ d && d ≤ daysInMonth y m
    else false
  | _ => false

/-- Result of `urllib.parse.urlparse`. -/
structure UrlParts where
  scheme : String
  netloc : String
  path : String
  params : String
  query : String
  fragment : String

/-- `urllib.parse.scheme_chars`. -/
def isSchemeChar (c : Char) : Bool :=
  c.isAlpha || c.isDigit || c == '+' || c == '-' || c == '.'

/-- Index of the first occurrence of `c` at or after `start`. -/
def findIdxFrom (c : Char) (start : Nat) (l : List Char) : Option Nat :=
  ((l.drop start).findIdx? (· == c)).map (· + start)

/-- Index of the last occurrence of `c` (Python `str.rfind`). -/
def rfindIdx (c : Char) (l : List Char) : Option Nat :=
  (l.reverse.findIdx? (· == c)).map (fun j => l.length - 1 - j)

/-- Split off the scheme: `i = url.find(':')`; when `i > 0`, the head is
an ASCII letter and every char before `:` is a scheme char, the scheme is
lowercased and removed. -/
def splitScheme (l : List Char) : List Char × List Char :=
  match l.findIdx? (· == ':') with
  | some i =>
    if 0 < i && (l.headD ' ').isAlpha && (l.take i).all isSchemeChar then
      ((l.take i).map Char.toLower, l.drop (i + 1))
    else ([], l)
  | none => ([], l)

/-- `_splitnetloc`: after a leading `//`, the netloc runs until the first
`/`, `?` or `#`. -/
def splitNetloc (l : List Char) : List Char × List Char :=
  match l with
  | '/' :: '/' :: rest =>
    (rest.takeWhile (fun c => !(c == '/' || c == '?' || c == '#')),
     rest.dropWhile (fun c => !(c == '/' || c == '?' || c == '#')))
  | _ => ([], l)

/-- Split at the first occurrence of `c`, removing it; identity with an
empty second component when absent (mirrors the guarded
`if c in url: url.split(c, 1)` idiom). -/
def splitOnFirst (c : Char) (l : List Char) : List Char × List Char :=
  match l.findIdx? (· == c) with
  | some i => (l.take i, l.drop (i + 1))
  | none => (l, [])

/-- `_splitparams`: when the path contains `;`, split params at the first
`;` after the last `/` (or the first `;` at all when there is no `/`). -/
def splitParams (path : List Char) : List Char × List Char :=
  if path.any (· == ';') then
    if path.any (· == '/') then
      match findIdxFrom ';' ((rfindIdx '/' path).getD 0) path with
      | none => (path, [])
      | some i => (path.take i, path.drop (i + 1))
    else
      match path.findIdx? (· == ';') with
      | none => (path, [])
      | some i => (path.take i, path.drop (i + 1))
  else (path, [])

/-- `urllib.parse.urlparse` (CPython): remove `\t\r\n`, split scheme,
netloc (failing on unbalanced IPv6 brackets), fragment, query and params. -/
def pyUrlparse (s : String) : Option UrlParts :=
  let l := s.toList.filter (fun c => !(c == '\t' || c == '\r' || c == '\n'))
  let (scheme, rest) := splitScheme l
  let (netloc, rest) := splitNetloc rest
  if (netloc.any (· == '[') && !netloc.any (· == ']')) ||
      (netloc.any (· == ']') && !netloc.any (· == '[')) then
    none
  else
    let (rest, fragment) := splitOnFirst '#' rest
    let (rest, query) := splitOnFirst '?' rest
    let (path, params) := splitParams rest
    some ⟨String.mk scheme, String.mk netloc, String.mk path,
      String.mk params, String.mk query, String.mk fragment⟩

/-- `urllib.parse.urlunparse` (via `urlunsplit`). -/
def pyUrlunparse (p : UrlParts) : String :=
  let url := if p.params ≠ "" then p.path ++ ";" ++ p.params else p.path
  let url :=
    if p.netloc ≠ "" || url.toList.take 2 = ['/', '/'] then
      "//" ++ p.netloc ++
        (if url ≠ "" && url.toList.headD ' ' ≠ '/' then "/" ++ url else url)
    else url
  let url := if p.scheme ≠ "" then p.scheme ++ ":" ++ url else url
  let url := if p.query ≠ "" then url ++ "?" ++ p.query else url
  if p.fragment ≠ "" then url ++ "#" ++ p.fragment else url

/-- One key of a dict schema: the literal data keys it matches (two for
the `Or("name", "family_name")` key), the key under which its default is
inserted, whether it is required, its `Optional(..., default=...)` value,
and the validator for its value. -/
structure FieldSpec where
  keys : List String
  defaultKey : String
  required : Bool
  dflt : Option Json
  val : Json → Option Json

/-- The schema key matching a data key (all key sets are disjoint in the
embedded schemas, so first-match is exact). -/
def findSpec (specs : List FieldSpec) (k : String) : Option FieldSpec :=
  specs.find? (fun s => s.keys.any (fun k0 => k0 == k))

/-- Validate the data entries in order: a matched entry's value is
validated and kept under its key, an unmatched entry is dropped when
`ignore_extra_keys` and is an error otherwise. -/
def processEntries (specs : List FieldSpec) (ig : Bool) :
    List (String × Json) → Option (List (String × Json))
  | [] => some []
  | (k, v) :: rest =>
    match findSpec specs k with
    | none => if ig then processEntries specs ig rest else none
    | some s =>
      match s.val v with
      | none => none
      | some w => (processEntries specs ig rest).map ((k, w) :: ·)

/-- Whether the data covers a schema key. -/
def coveredKeys (data : List (String × Json)) (s : FieldSpec) : Bool :=
  data.any (fun kv => s.keys.any (fun k0 => k0 == kv.1))

/-- Defaults appended for uncovered `Optional` keys carrying one. -/
def defaultsFor (specs : List FieldSpec) (data : List (String × Json)) :
    List (String × Json) :=
  specs.filterMap (fun s =>
    if coveredKeys data s then none
    else s.dflt.map (fun d => (s.defaultKey, d)))

/-- Dict validation of the `schema` library: all required keys covered,
every entry validated in order, defaults appended. -/
def validateFields (specs : List FieldSpec) (ig : Bool)
    (data : List (String × Json)) : Option (List (String × Json)) :=
  if specs.all (fun s => !s.required || coveredKeys data s) then
    (processEntries specs ig data).map (· ++ defaultsFor specs data)
  else none

/-- A dict schema as a `Json` validator. -/
def dictV (specs : List FieldSpec) (ig : Bool) : Json → Option Json
  | .obj kvs => (validateFields specs ig kvs).map .obj
  | _ => none

/-- Validate each element in order, collecting the results; the first
failing element fails the list. -/
def optMapList (f : Json → Option Json) : List Json → Option (List Json)
  | [] => some []
  | x :: xs =>
    match f x with
    | none => none
    | some y => (optMapList f xs).map (y :: ·)

/-- `[sub]`: a list whose every element validates against `sub`. -/
def listV (elemV : Json → Option Json) : Json → Option Json
  | .arr xs => (optMapList elemV xs).map .arr
  | _ => none

/-- The `str` type check. -/
def strV : Json → Option Json
  | .str s => some (.str s)
  | _ => none

/-- `And(str, len)`: a non-empty string. -/
def nonEmptyStrV : Json → Option Json
  | .str s => if s.length ≠ 0 then some (.str s) else none
  | _ => none

/-- The `bool` type check. -/
def boolV : Json → Option Json
  | .bool b => some (.bool b)
  | _ => none

/-- `Or(str, None)`. -/
def strOrNoneV : Json → Option Json
  | .str s => some (.str s)
  | .null => some .null
  | _ => none

/-- A string literal schema: matches by equality. -/
def constStrV (c : String) : Json → Option Json
  | .str s => if s = c then some (.str s) else none
  | _ => none

/-- `Or` of string literals. -/
def oneOfStrV (cs : List String) : Json → Option Json
  | .str s => if cs.contains s then some (.str s) else none
  | _ => none

/-- The `dict` type check (free-form mapping, returned unchanged). -/
def dictAnyV : Json → Option Json
  | .obj kvs => some (.obj kvs)
  | _ => none

/-- `Regex(ORCID_ID_RE)`: a string with an ORCID-pattern match
somewhere inside it (`re.search`). -/
def orcidIdentifierV : Json → Option Json
  | .str s => if orcidSearch s then some (.str s) else none
  | _ => none

/-- `And(Use(urlparse), lambda x: x.scheme and x.netloc, Use(urlunparse))`:
parse as URL, require non-empty scheme and netloc, return the re-rendered
URL. -/
def doiIdentifierV : Json → Option Json
  | .str s =>
    match pyUrlparse s with
    | none => none
    | some p =>
      if p.scheme ≠ "" && p.netloc ≠ "" then some (.str (pyUrlunparse p))
      else none
  | _ => none

/-- `Regex(r"^v\d+(\.\d+)*")`. -/
def versionV : Json → Option Json
  | .str s => if versionSearch s then some (.str s) else none
  | _ => none

/-- `Regex(UUID_RE)` (the `community` field of `schemas/base.py`; the
`base_schema.py` variant instead checks `isinstance(data, uuid.UUID)`,
which no JSON string satisfies). -/
def uuidRegexV : Json → Option Json
  | .str s => if uuidSearch s then some (.str s) else none
  | _ => none

/-- `Or(date.fromisoformat, date.fromtimestamp)`: an ISO `YYYY-MM-DD`
string, or a number (Python `bool` included, being an `int`); callables
validate without transforming. -/
def pubDateV : Json → Option Json
  | .str s => if isoDateValid s then some (.str s) else none
  | .num n => some (.num n)
  | .bool b => some (.bool b)
  | _ => none

/-- A required literal-key field. -/
def mkReq (k : String) (v : Json → Option Json) : FieldSpec :=
  ⟨[k], k, true, none, v⟩

/-- An optional literal-key field without default. -/
def mkOpt (k : String) (v : Json → Option Json) : FieldSpec :=
  ⟨[k], k, false, none, v⟩

/-- An optional literal-key field with a default. -/
def mkOptD (k : String) (d : Json) (v : Json → Option Json) : FieldSpec :=
  ⟨[k], k, false, some d, v⟩

/-- ORCID branch of `id_schema`:
`{"scheme": "orcid", "identifier": Regex(ORCID_ID_RE)}`. -/
def orcidIdSpecs : List FieldSpec :=
  [mkReq "scheme" (constStrV "orcid"), mkReq "identifier" orcidIdentifierV]

/-- DOI branch of `id_schema`: `{"identifier": And(Use(urlparse), ...),
Optional("scheme", default="doi"): "doi"}`. -/
def doiIdSpecs : List FieldSpec :=
  [mkReq "identifier" doiIdentifierV,
   mkOptD "scheme" (.str "doi") (constStrV "doi")]

/-- `id_schema = Or(orcid-dict, doi-dict)`: try the alternatives in
order (the `ig` flag is the `ignore_extra_keys` flag the library
propagates into `Or`). -/
def id_schema (ig : Bool) (j : Json) : Option Json :=
  match dictV orcidIdSpecs ig j with
  | some out => some out
  | none => dictV doiIdSpecs ig j

/-- Affiliation entry: `{"name": str}`. -/
def affiliationSpecs : List FieldSpec := [mkReq "name" strV]

/-- `person_or_org` dict of `creator_schema` (inherits
`ignore_extra_keys=True`). -/
def personSpecs : List FieldSpec :=
  [⟨["name", "family_name"], "name", true, none, nonEmptyStrV⟩,
   mkOpt "given_name" nonEmptyStrV,
   mkOpt "identifiers" (listV (id_schema true)),
   mkReq "type" (constStrV "personal")]

/-- Keys of `creator_schema` (`ignore_extra_keys=True`). -/
def creatorSpecs : List FieldSpec :=
  [mkOpt "affiliations" (listV (dictV affiliationSpecs true)),
   mkReq "person_or_org" (dictV personSpecs true)]

/-- `creator_schema`. -/
def creator_schema : Json → Option Json := dictV creatorSpecs true

/-- Rights entry: `{"id": Or("cc-by-4.0")}`. -/
def rightsSpecs : List FieldSpec := [mkReq "id" (constStrV "cc-by-4.0")]

/-- `resource_type`: `{"id": Or("model")}`. -/
def resourceTypeSpecs : List FieldSpec := [mkReq "id" (constStrV "model")]

/-- Subject entry: `{"subject": str}`. -/
def subjectSpecs : List FieldSpec := [mkReq "subject" strV]

/-- Keys of `metadata_schema`. -/
def metadataSpecs : List FieldSpec :=
  [mkReq "title" nonEmptyStrV,
   mkReq "description" nonEmptyStrV,
   mkReq "creators" (listV creator_schema),
   mkReq "rights" (listV (dictV rightsSpecs false)),
   mkReq "resource_type" (dictV resourceTypeSpecs false),
   mkOptD "subjects" (.arr []) (listV (dictV subjectSpecs false)),
   mkReq "version" versionV,
   mkOpt "publisher" strV,
   mkOpt "publication_date" pubDateV,
   mkOpt "identifiers" (listV (id_schema false))]

/-- `metadata_schema`. -/
def metadata_schema : Json → Option Json := dictV metadataSpecs false

/-- `embargo`: `{"active": bool, "reason": Or(str, None)}`. -/
def embargoSpecs : List FieldSpec :=
  [mkReq "active" boolV, mkReq "reason" strOrNoneV]

/-- Keys of the `access` sub-schema. -/
def accessSpecs : List FieldSpec :=
  [mkOpt "embargo" (dictV embargoSpecs false),
   mkOptD "files" (.str "public") (oneOfStrV ["public", "private"]),
   mkOptD "record" (.str "public") (oneOfStrV ["public", "private"]),
   mkOpt "status" (oneOfStrV ["open", "closed"])]

/-- The literal default of the `access` key. -/
def accessDefault : Json :=
  .obj [("files", .str "public"), ("record", .str "public")]

/-- `files`: `{"enabled": bool}`. -/
def filesFieldSpecs : List FieldSpec := [mkReq "enabled" boolV]

/-- `custom_fields`: `{"dsmd": [dict]}`. -/
def customFieldsSpecs : List FieldSpec := [mkReq "dsmd" (listV dictAnyV)]

/-- Keys of `base_schema`. -/
def baseSpecs : List FieldSpec :=
  [mkOptD "access" accessDefault (dictV accessSpecs false),
   mkOpt "files" (dictV filesFieldSpecs false),
   mkReq "custom_fields" (dictV customFieldsSpecs false),
   mkReq "metadata" metadata_schema,
   mkOpt "community" uuidRegexV]

/-- `base_schema.validate`. -/
def base_schema : Json → Option Json := dictV baseSpecs false

/-- Keys of the first creator entry of a document's `metadata.creators`
(projection used to exhibit that validation rewrites a required field). -/
def firstCreatorKeys (j : Json) : List String :=
  match j with
  | .obj kvs =>
    match kvs.lookup "metadata" with
    | some (.obj mkvs) =>
      match mkvs.lookup "creators" with
      | some (.arr (c :: _)) =>
        match c with
        | .obj ckvs => ckvs.map Prod.fst
        | _ => []
      | _ => []
    | _ => []
  | _ => []

/-! ## Theorems -/

theorem removeSuffix_append_of_suffix {l suf : List Char} (h : suf <:+ l) :
    removeSuffix l suf ++ suf = l := by
  obtain ⟨t, rfl⟩ := h
  have hlen : (t ++ suf).length - suf.length = t.length := by
    simp [List.length_append]
  rw [removeSuffix, if_pos (by exact List.isSuffixOf_iff_suffix.mpr ⟨t, rfl⟩), hlen,
    List.take_left]

theorem removeSuffix_of_not_suffix {l suf : List Char} (h : ¬ suf <:+ l) :
    removeSuffix l suf = l := by
  rw [removeSuffix, if_neg (fun hc => h (List.isSuffixOf_iff_suffix.mp hc))]

theorem suffix_append_right_iff (a b s : List Char) :
    a ++ s <:+ b ++ s ↔ a <:+ b := by
  constructor
  · rintro ⟨t, ht⟩
    refine ⟨t, ?_⟩
    have : t ++ a ++ s = b ++ s := by rw [List.append_assoc]; exact ht
    exact List.append_cancel_right this
  · rintro ⟨t, rfl⟩
    exact ⟨t, by rw [List.append_assoc]⟩

/-- C5 (counterexample): for an input URL already ending in the repeated
segment `/api/api`, the constructor removes only one trailing `/api` and
re-appends it, so the stored URL still ends in `/api/api` — it does not end
in `/api` exactly once, contrary to the claim. -/
theorem initUrl_repeated_api_counterexample :
    initUrl "https://example.org/api/api" = "https://example.org/api/api" ∧
    "/api/api".toList <:+ (initUrl "https://example.org/api/api").toList := by
  refine ⟨by rfl, ⟨"https://example.org".toList, by rfl⟩⟩

/-- C5 (amended): for every input URL string, the URL stored by the
`InvenioRepository` constructor always ends in `/api`; it ends in `/api`
exactly once (i.e. does not end in `/api/api`) precisely when the input,
after stripping leading/trailing slashes, does not already end in
`/api/api`. -/
theorem initUrl_endsWith_api (s : String) :
    apiSuffix <:+ (initUrl s).toList ∧
    ((apiSuffix ++ apiSuffix) <:+ (initUrl s).toList ↔
      (apiSuffix ++ apiSuffix) <:+ pyStrip '/' s.toList) := by
  by_cases h : apiSuffix <:+ pyStrip '/' s.toList
  · have he : (initUrl s).toList = pyStrip '/' s.toList := by
      show removeSuffix (pyStrip '/' s.toList) apiSuffix ++ apiSuffix = _
      exact removeSuffix_append_of_suffix h
    rw [he]
    exact ⟨h, Iff.rfl⟩
  · have he : (initUrl s).toList = pyStrip '/' s.toList ++ apiSuffix := by
      show removeSuffix (pyStrip '/' s.toList) apiSuffix ++ apiSuffix = _
      rw [removeSuffix_of_not_suffix h]
    rw [he]
    refine ⟨List.suffix_append _ _, ?_, ?_⟩
    · intro hc
      exact absurd ((suffix_append_right_iff apiSuffix _ apiSuffix).mp hc) h
    · intro hc
      exact absurd ((List.suffix_append apiSuffix apiSuffix).trans hc) h

/-- C1: for every completed response, `_check` returns the parsed JSON
body when the status is a success (< 400), and raises an `HTTPError`
whose message is `"Error while {proc}, info: {m}"` when the status is a
failure (4xx/5xx) and the JSON body carries a string `message` field
`m`. -/
theorem check_success_and_failure (status : Nat) (body : Json)
    (content : List Nat) (proc m : String) :
    (status < 400 → check ⟨status, body, content⟩ proc = .ok body) ∧
    (400 ≤ status → status < 600 →
      (∃ kvs, body = .obj kvs ∧ kvs.lookup "message" = some (.str m)) →
      check ⟨status, body, content⟩ proc =
        .error (.httpError ("Error while " ++ proc ++ ", info: " ++ m))) := by
  constructor
  · intro h
    simp [check, isErrorStatus, Nat.not_le.mpr h]
  · rintro h4 h6 ⟨kvs, rfl, hm⟩
    simp [check, isErrorStatus, h4, h6, hm, pyStr]

/-- C1 (witness): instantiating `_check` at a 404 response with body
`{"message": "Record not found"}` and description `"getting record 42"`
yields exactly the error message
`"Error while getting record 42, info: Record not found"`. -/
theorem check_success_and_failure_witness :
    check ⟨404, .obj [("message", .str "Record not found")], []⟩
        "getting record 42" =
      .error (.httpError "Error while getting record 42, info: Record not found") := by
  have h := (check_success_and_failure 404
      (.obj [("message", .str "Record not found")]) [] "getting record 42"
      "Record not found").2 (by decide) (by decide) ⟨_, rfl, by rfl⟩
  simpa using h

theorem lookup_map_settok (tok : String) (l : List (String × String))
    (h : l.any (fun kv => kv.1 == "access_token") = true) :
    (l.map (fun kv => if kv.1 == "access_token" then (kv.1, tok) else kv)).lookup
      "access_token" = some tok := by
  induction l with
  | nil => simp at h
  | cons kv rest ih =>
    obtain ⟨k, v⟩ := kv
    by_cases hk : k = "access_token"
    · subst hk
      simp [List.lookup]
    · have hrest : rest.any (fun kv => kv.1 == "access_token") = true := by
        simpa [hk] using h
      have hb : ¬ ((k == "access_token") = true) := by simp [hk]
      have hb' : ("access_token" == k) = false := beq_eq_false_iff_ne.mpr (Ne.symm hk)
      simp only [List.map_cons, if_neg hb]
      simpa [List.lookup, hb'] using ih hrest

theorem lookup_append_settok (tok : String) (l : List (String × String))
    (h : l.any (fun kv => kv.1 == "access_token") = false) :
    (l ++ [("access_token", tok)]).lookup "access_token" = some tok := by
  induction l with
  | nil => simp [List.lookup]
  | cons kv rest ih =>
    obtain ⟨k, v⟩ := kv
    simp only [List.any_cons, Bool.or_eq_false_iff, beq_eq_false_iff_ne] at h
    have hb : ("access_token" == k) = false := beq_eq_false_iff_ne.mpr (Ne.symm h.1)
    simpa [List.lookup, hb] using ih h.2

/-- The merged params always map `access_token` to the repository key. -/
theorem lookup_withToken (extra : List (String × String)) (tok : String) :
    (withToken extra tok).lookup "access_token" = some tok := by
  unfold withToken
  split
  next h => exact lookup_map_settok tok extra h
  next h => exact lookup_append_settok tok extra (Bool.eq_false_iff.mpr h)

/-- C6 (counterexample): the community-slug resolution GET issued inside
`_Draft.bind` passes no `params` at all, so it does not carry the
repository credential as an `access_token` query parameter — contrary to
the claim that it carries it like every other call. -/
theorem bindResolve_no_token_counterexample :
    (bindResolveRequest "https://repo.example/api" "geoff").params = [] ∧
    (bindResolveRequest "https://repo.example/api" "geoff").params.lookup
      "access_token" = none :=
  ⟨rfl, rfl⟩

/-- C6 (amended): every HTTP request issued by a handle operation carries
the repository credential as an `access_token` query parameter, with the
single exception of the community-slug resolution GET inside
`_Draft.bind`, which is issued with no query parameters at all. -/
theorem handle_requests_carry_token
    (base recId name slug licId bucketUrl link fileName tok communityId
      filesApi : String)
    (extra : List (String × String)) (bytes : List Nat)
    (data sortedIds : Json) :
    carriesToken (fileInfoRequest filesApi name tok extra) tok ∧
    carriesToken (fileUpdateRequest filesApi name tok fileName extra) tok ∧
    carriesToken (fileContentRequest link tok extra) tok ∧
    carriesToken (fileDeleteRequest filesApi name tok extra) tok ∧
    carriesToken (fileUploadRequest bucketUrl name tok extra bytes) tok ∧
    carriesToken (filesListRequest filesApi tok extra) tok ∧
    carriesToken (filesSortRequest filesApi tok extra sortedIds) tok ∧
    carriesToken (uploadInitRequest filesApi tok name extra) tok ∧
    carriesToken (uploadContentRequest filesApi tok name extra bytes) tok ∧
    carriesToken (uploadCommitRequest filesApi tok name extra) tok ∧
    carriesToken (draftGetRequest base recId tok extra) tok ∧
    carriesToken (draftUpdateRequest base recId tok extra data) tok ∧
    carriesToken (draftDeleteRequest base recId tok extra) tok ∧
    carriesToken (bindReviewRequest base recId tok communityId extra) tok ∧
    carriesToken (draftPublishRequest base recId tok extra) tok ∧
    carriesToken (draftSubmitReviewRequest base recId tok extra) tok ∧
    carriesToken (recordGetRequest base recId tok extra) tok ∧
    carriesToken (recordUpdateRequest base recId tok extra data) tok ∧
    carriesToken (recordDeleteRequest base recId tok extra) tok ∧
    carriesToken (recordPublishRequest base recId tok extra) tok ∧
    carriesToken (recordEditRequest base recId tok extra) tok ∧
    carriesToken (recordDiscardRequest base recId tok extra) tok ∧
    carriesToken (recordNewVersionRequest base recId tok extra) tok ∧
    carriesToken (allRecordsGetRequest base recId tok extra) tok ∧
    carriesToken (allRecordsDraftRequest base recId tok extra) tok ∧
    carriesToken (allRecordsCreateRequest base tok extra) tok ∧
    carriesToken (allRecordsListRequest base tok extra) tok ∧
    carriesToken (licensesGetRequest base licId tok extra) tok ∧
    carriesToken (licensesListRequest base tok extra) tok ∧
    (bindResolveRequest base slug).params = [] := by
  repeat' constructor
  all_goals
    first
    | rfl
    | exact lookup_withToken extra tok

/-- `check` succeeds exactly on a non-error status, returning the body. -/
theorem check_ok_of_status {r : Response} (proc : String)
    (h : isErrorStatus r.status = false) : check r proc = .ok r.body := by
  simp [check, h]

/-- `check` fails on an error status. -/
theorem check_error_of_status {r : Response} (proc : String)
    (h : isErrorStatus r.status = true) : ∃ e, check r proc = .error e := by
  unfold check
  rw [h]
  cases hb : r.body <;> simp
  case obj kvs => cases kvs.lookup "message" <;> simp

theorem filesUpload_trace_initial (parentApiUrl recId tok : String)
    (extra : List (String × String)) (files : List (String × List Nat))
    (env : Request → Response) :
    (filesUpload parentApiUrl recId tok extra files env).1 <+:
      uploadRequestSeq parentApiUrl tok extra files := by
  induction files with
  | nil => exact List.nil_prefix
  | cons nb rest ih =>
    obtain ⟨name, bytes⟩ := nb
    rw [filesUpload, uploadRequestSeq]
    cases h1 : check (env (uploadInitRequest parentApiUrl tok name extra))
        ("starting draft file upload for record " ++ recId) with
    | error e => simp
    | ok j1 =>
      cases h2 : check (env (uploadContentRequest parentApiUrl tok name extra bytes))
          ("uploading file " ++ name ++ " content to record " ++ recId) with
      | error e => simp [h2]
      | ok j2 =>
        cases h3 : check (env (uploadCommitRequest parentApiUrl tok name extra))
            ("committing file " ++ name ++ " to record " ++ recId) with
        | error e => simp [h2, h3]
        | ok j3 =>
          simpa [h2, h3, uploadRequestSeq] using ih

theorem filesUpload_all_ok (parentApiUrl recId tok : String)
    (extra : List (String × String)) (files : List (String × List Nat))
    (env : Request → Response)
    (h : ∀ r ∈ uploadRequestSeq parentApiUrl tok extra files,
      isErrorStatus (env r).status = false) :
    filesUpload parentApiUrl recId tok extra files env =
      (uploadRequestSeq parentApiUrl tok extra files,
       .ok ((uploadRequestSeq parentApiUrl tok extra files).map
        (fun r => (env r).body))) := by
  induction files with
  | nil => rfl
  | cons nb rest ih =>
    obtain ⟨name, bytes⟩ := nb
    have hseq : uploadRequestSeq parentApiUrl tok extra ((name, bytes) :: rest) =
        uploadInitRequest parentApiUrl tok name extra ::
        uploadContentRequest parentApiUrl tok name extra bytes ::
        uploadCommitRequest parentApiUrl tok name extra ::
        uploadRequestSeq parentApiUrl tok extra rest := by
      simp [uploadRequestSeq]
    rw [hseq] at h ⊢
    have h1 := check_ok_of_status
      (r := env (uploadInitRequest parentApiUrl tok name extra))
      ("starting draft file upload for record " ++ recId) (h _ (by simp))
    have h2 := check_ok_of_status
      (r := env (uploadContentRequest parentApiUrl tok name extra bytes))
      ("uploading file " ++ name ++ " content to record " ++ recId) (h _ (by simp))
    have h3 := check_ok_of_status
      (r := env (uploadCommitRequest parentApiUrl tok name extra))
      ("committing file " ++ name ++ " to record " ++ recId) (h _ (by simp))
    have hrest : ∀ r ∈ uploadRequestSeq parentApiUrl tok extra rest,
        isErrorStatus (env r).status = false := fun r hr => h r (by simp [hr])
    rw [filesUpload, h1, h2, h3, ih hrest]
    simp [Except.map]

theorem filesUpload_error_stops (parentApiUrl recId tok : String)
    (extra : List (String × String)) (files : List (String × List Nat))
    (env : Request → Response) (e : PyErr)
    (herr : (filesUpload parentApiUrl recId tok extra files env).2 = .error e) :
    ∃ tr₁ r, (filesUpload parentApiUrl recId tok extra files env).1 = tr₁ ++ [r] ∧
      (∀ r' ∈ tr₁, isErrorStatus (env r').status = false) ∧
      isErrorStatus (env r).status = true := by
  induction files with
  | nil => simp [filesUpload] at herr
  | cons nb rest ih =>
    obtain ⟨name, bytes⟩ := nb
    rw [filesUpload] at herr ⊢
    cases hs1 : isErrorStatus (env (uploadInitRequest parentApiUrl tok name extra)).status with
    | true =>
      obtain ⟨e1, he1⟩ := check_error_of_status
        ("starting draft file upload for record " ++ recId) hs1
      rw [he1]
      exact ⟨[], _, by simp, by simp, hs1⟩
    | false =>
      rw [check_ok_of_status _ hs1] at herr ⊢
      cases hs2 : isErrorStatus
          (env (uploadContentRequest parentApiUrl tok name extra bytes)).status with
      | true =>
        obtain ⟨e2, he2⟩ := check_error_of_status
          ("uploading file " ++ name ++ " content to record " ++ recId) hs2
        rw [he2]
        refine ⟨[uploadInitRequest parentApiUrl tok name extra], _, by simp, ?_, hs2⟩
        intro r' hr'
        obtain rfl := List.mem_singleton.mp hr'
        exact hs1
      | false =>
        rw [check_ok_of_status _ hs2] at herr ⊢
        cases hs3 : isErrorStatus
            (env (uploadCommitRequest parentApiUrl tok name extra)).status with
        | true =>
          obtain ⟨e3, he3⟩ := check_error_of_status
            ("committing file " ++ name ++ " to record " ++ recId) hs3
          rw [he3]
          refine ⟨[uploadInitRequest parentApiUrl tok name extra,
            uploadContentRequest parentApiUrl tok name extra bytes], _, by simp, ?_, hs3⟩
          intro r' hr'
          rcases List.mem_cons.mp hr' with rfl | h
          · exact hs1
          · obtain rfl := List.mem_singleton.mp h
            exact hs2
        | false =>
          rw [check_ok_of_status _ hs3] at herr ⊢
          simp only [Except.map] at herr ⊢
          have htl : (filesUpload parentApiUrl recId tok extra rest env).2 = .error e := by
            rcases hres : (filesUpload parentApiUrl recId tok extra rest env).2 with
              he | hok
            · rw [hres] at herr
              simpa using herr
            · rw [hres] at herr
              simp at herr
          obtain ⟨tr₁, r, htr, hall, hr⟩ := ih htl
          refine ⟨uploadInitRequest parentApiUrl tok name extra ::
            uploadContentRequest parentApiUrl tok name extra bytes ::
            uploadCommitRequest parentApiUrl tok name extra :: tr₁, r,
            by simp [htr], ?_, hr⟩
          intro r' hr'
          rcases List.mem_cons.mp hr' with rfl | hr'
          · exact hs1
          rcases List.mem_cons.mp hr' with rfl | hr'
          · exact hs2
          rcases List.mem_cons.mp hr' with rfl | hr'
          · exact hs3
          exact hall r' hr'

/-- C3: `_Files.upload` processes the mapping entries in order, issuing
for each entry the three-step sequence POST `[{"key": name}]`, PUT of the
raw bytes to `{files_url}/{name}/content`, POST to
`{files_url}/{name}/commit` (the trace of issued requests is always a
prefix of that sequence); when every request succeeds it issues exactly
the full sequence and returns the checked JSON responses in issue order,
three per entry; and on a failure it raises, with all requests before the
failing one successful and nothing issued after the failing step. -/
theorem filesUpload_spec (parentApiUrl recId tok : String)
    (extra : List (String × String)) (files : List (String × List Nat))
    (env : Request → Response) :
    (filesUpload parentApiUrl recId tok extra files env).1 <+:
      uploadRequestSeq parentApiUrl tok extra files ∧
    ((∀ r ∈ uploadRequestSeq parentApiUrl tok extra files,
        isErrorStatus (env r).status = false) →
      filesUpload parentApiUrl recId tok extra files env =
        (uploadRequestSeq parentApiUrl tok extra files,
         .ok ((uploadRequestSeq parentApiUrl tok extra files).map
          (fun r => (env r).body)))) ∧
    (∀ e, (filesUpload parentApiUrl recId tok extra files env).2 = .error e →
      ∃ tr₁ r,
        (filesUpload parentApiUrl recId tok extra files env).1 = tr₁ ++ [r] ∧
        (∀ r' ∈ tr₁, isErrorStatus (env r').status = false) ∧
        isErrorStatus (env r).status = true) :=
  ⟨filesUpload_trace_initial parentApiUrl recId tok extra files env,
   filesUpload_all_ok parentApiUrl recId tok extra files env,
   fun e he => filesUpload_error_stops parentApiUrl recId tok extra files env e he⟩

/-- C3 (witness): a one-entry mapping under an all-success environment
issues exactly the three-step sequence and returns the three checked
bodies in order. -/
theorem filesUpload_spec_witness :
    filesUpload "u" "rec1" "tok" [] [("metadata.yml", [104, 105])]
        (fun _ => ⟨201, .obj [("key", .str "metadata.yml")], []⟩) =
      (uploadRequestSeq "u" "tok" [] [("metadata.yml", [104, 105])],
       .ok [.obj [("key", .str "metadata.yml")],
            .obj [("key", .str "metadata.yml")],
            .obj [("key", .str "metadata.yml")]]) := by
  have h := (filesUpload_spec "u" "rec1" "tok" [] [("metadata.yml", [104, 105])]
      (fun _ => ⟨201, .obj [("key", .str "metadata.yml")], []⟩)).2.1
    (fun r _ => rfl)
  simpa [uploadRequestSeq] using h

/-- C9: whenever the info step succeeds (with the expected `links.self`
and `key` fields) and the destination is usable (not an existing plain
file), a failing content GET still results in the response content being
written to `dest/filename`, with the `HTTPError` raised only afterwards:
the list of writes performed is exactly that one write and the overall
result is an error. -/
theorem fileDownload_writes_before_raising (filesApiUrl name recId tok dest
      link filename : String)
    (extra : List (String × String)) (links : Json)
    (env : Request → Response)
    (hinfo : isErrorStatus
      (env (fileInfoRequest filesApiUrl name tok extra)).status = false)
    (hlinks : jsonLookup (env (fileInfoRequest filesApiUrl name tok extra)).body
      "links" = .ok links)
    (hself : jsonLookup links "self" = .ok (.str link))
    (hkey : jsonLookup (env (fileInfoRequest filesApiUrl name tok extra)).body
      "key" = .ok (.str filename))
    (hfail : isErrorStatus
      (env (fileContentRequest link tok extra)).status = true) :
    (fileDownload filesApiUrl name recId tok extra dest false env).1 =
      [(dest ++ "/" ++ filename,
        (env (fileContentRequest link tok extra)).content)] ∧
    ∃ e, (fileDownload filesApiUrl name recId tok extra dest false env).2 =
      .error e := by
  obtain ⟨e, he⟩ := check_error_of_status
    ("downloading file " ++ name ++ " from record " ++ recId) hfail
  refine ⟨?_, e, ?_⟩ <;>
  · rw [fileDownload]
    simp only [check_ok_of_status _ hinfo, hlinks, hself, hkey]
    simp [pyStr, he]

/-- C9 (witness): under a concrete environment where the info GET
succeeds and the content GET returns a 404, the 404 body content is
written to `out/f.txt` and the call still errors. -/
theorem fileDownload_writes_before_raising_witness :
    (fileDownload "F" "f.txt" "r1" "tok" [] "out" false (fun r =>
      if r.url = "F/f.txt" then
        ⟨200, .obj [("links", .obj [("self", .str "L")]), ("key", .str "f.txt")], []⟩
      else ⟨404, .obj [("message", .str "no")], [7, 8]⟩)).1 =
      [("out/f.txt", [7, 8])] ∧
    ∃ e, (fileDownload "F" "f.txt" "r1" "tok" [] "out" false (fun r =>
      if r.url = "F/f.txt" then
        ⟨200, .obj [("links", .obj [("self", .str "L")]), ("key", .str "f.txt")], []⟩
      else ⟨404, .obj [("message", .str "no")], [7, 8]⟩)).2 = .error e := by
  have h := fileDownload_writes_before_raising "F" "f.txt" "r1" "tok" "out" "L"
    "f.txt" [] (.obj [("self", .str "L")]) (fun r =>
      if r.url = "F/f.txt" then
        ⟨200, .obj [("links", .obj [("self", .str "L")]), ("key", .str "f.txt")], []⟩
      else ⟨404, .obj [("message", .str "no")], [7, 8]⟩)
    rfl rfl rfl rfl rfl
  exact h

/-- C7 (code bug): `_Files.download` never downloads anything — it always
raises: either the listing's own `HTTPError`, or, whenever the listing
succeeds, the `AttributeError` from calling `.json()` on the already
parsed list result — contrary to the claim that it downloads every
listed file whenever the per-file downloads succeed. -/
theorem filesDownload_always_raises (parentApiUrl recId tok : String)
    (extra : List (String × String)) (env : Request → Response) :
    (∃ e, filesDownload parentApiUrl recId tok extra env = .error e) ∧
    (isErrorStatus (env (filesListRequest parentApiUrl tok extra)).status = false →
      filesDownload parentApiUrl recId tok extra env =
        .error (pyJsonAttributeError
          (env (filesListRequest parentApiUrl tok extra)).body)) := by
  constructor
  · cases hs : isErrorStatus
        (env (filesListRequest parentApiUrl tok extra)).status with
    | true =>
      obtain ⟨e, he⟩ := check_error_of_status
        ("listing record " ++ recId ++ " files") hs
      exact ⟨e, by rw [filesDownload, he]⟩
    | false =>
      refine ⟨pyJsonAttributeError
        (env (filesListRequest parentApiUrl tok extra)).body, ?_⟩
      rw [filesDownload, check_ok_of_status _ hs]
  · intro hs
    rw [filesDownload, check_ok_of_status _ hs]

/-- C7 (witness): with a successful listing response the call raises the
`AttributeError` for `.json()` on a dict. -/
theorem filesDownload_always_raises_witness :
    filesDownload "R" "r1" "tok" []
        (fun _ => ⟨200, .obj [("entries", .arr [])], []⟩) =
      .error (.attributeError "'dict' object has no attribute 'json'") := by
  have h := (filesDownload_always_raises "R" "r1" "tok" []
      (fun _ => ⟨200, .obj [("entries", .arr [])], []⟩)).2 rfl
  exact h

theorem lookup_append (l₁ l₂ : List (String × Json)) (k : String) :
    (l₁ ++ l₂).lookup k = (l₁.lookup k).or (l₂.lookup k) := by
  induction l₁ with
  | nil => simp [List.lookup]
  | cons kv rest ih =>
    obtain ⟨k', v⟩ := kv
    by_cases h : k = k'
    · simp [List.lookup, h]
    · have hb : (k == k') = false := beq_eq_false_iff_ne.mpr h
      simp [List.lookup, hb, ih]

theorem lookup_mem {l : List (String × Json)} {k : String} {v : Json}
    (h : l.lookup k = some v) : (k, v) ∈ l := by
  induction l with
  | nil => simp [List.lookup] at h
  | cons kv rest ih =>
    obtain ⟨k', v'⟩ := kv
    by_cases hk : k = k'
    · subst hk
      simp [List.lookup] at h
      simp [h]
    · have hb : (k == k') = false := beq_eq_false_iff_ne.mpr hk
      simp [List.lookup, hb] at h
      exact List.mem_cons_of_mem _ (ih h)

/-- For a single-literal-key field, coverage is exactly presence of the
key in the data. -/
theorem covered_single (data : List (String × Json)) (k dk : String)
    (r : Bool) (d : Option Json) (f : Json → Option Json) :
    coveredKeys data ⟨[k], dk, r, d, f⟩ = (data.lookup k).isSome := by
  induction data with
  | nil => simp [coveredKeys, List.lookup]
  | cons kv rest ih =>
    obtain ⟨k', v⟩ := kv
    simp only [coveredKeys, List.any_cons] at ih ⊢
    by_cases hk : k = k'
    · subst hk
      simp [List.lookup]
    · have hb : (k == k') = false := beq_eq_false_iff_ne.mpr hk
      simp only [List.lookup, hb]
      simpa using ih

theorem processEntries_lookup_none (specs : List FieldSpec) (ig : Bool)
    {data out : List (String × Json)} {k : String}
    (hf : findSpec specs k = none)
    (h : processEntries specs ig data = some out) :
    out.lookup k = none := by
  induction data generalizing out with
  | nil =>
    obtain rfl : out = [] := by simpa [processEntries] using h.symm
    simp [List.lookup]
  | cons kv rest ih =>
    obtain ⟨k', v⟩ := kv
    rw [processEntries] at h
    cases hf' : findSpec specs k' with
    | none =>
      simp only [hf'] at h
      cases ig with
      | false => simp at h
      | true => exact ih (by simpa using h)
    | some s =>
      simp only [hf'] at h
      cases hv : s.val v with
      | none =>
        simp only [hv] at h
        exact Option.noConfusion h
      | some w =>
        simp only [hv] at h
        cases hrest : processEntries specs ig rest with
        | none => rw [hrest] at h; cases h
        | some out' =>
          rw [hrest] at h
          obtain rfl : out = (k', w) :: out' := by simpa using h.symm
          have hk : k ≠ k' := fun hkk => by rw [hkk, hf'] at hf; cases hf
          have hb : (k == k') = false := beq_eq_false_iff_ne.mpr hk
          simp [List.lookup, hb, ih hrest]

theorem processEntries_lookup_found (specs : List FieldSpec) (ig : Bool)
    {data out : List (String × Json)} {k : String} {s : FieldSpec}
    (hf : findSpec specs k = some s)
    (h : processEntries specs ig data = some out) :
    out.lookup k = (data.lookup k).bind s.val := by
  induction data generalizing out with
  | nil =>
    obtain rfl : out = [] := by simpa [processEntries] using h.symm
    simp [List.lookup]
  | cons kv rest ih =>
    obtain ⟨k', v⟩ := kv
    rw [processEntries] at h
    cases hf' : findSpec specs k' with
    | none =>
      simp only [hf'] at h
      cases ig with
      | false => simp at h
      | true =>
        have hk : k ≠ k' := fun hkk => by rw [hkk, hf'] at hf; cases hf
        have hb : (k == k') = false := beq_eq_false_iff_ne.mpr hk
        simp [List.lookup, hb, ih (by simpa using h)]
    | some s' =>
      simp only [hf'] at h
      cases hv : s'.val v with
      | none =>
        simp only [hv] at h
        exact Option.noConfusion h
      | some w =>
        simp only [hv] at h
        cases hrest : processEntries specs ig rest with
        | none => rw [hrest] at h; cases h
        | some out' =>
          rw [hrest] at h
          obtain rfl : out = (k', w) :: out' := by simpa using h.symm
          by_cases hk : k = k'
          · subst hk
            rw [hf'] at hf
            obtain rfl : s' = s := by simpa using hf
            simp [List.lookup, hv]
          · have hb : (k == k') = false := beq_eq_false_iff_ne.mpr hk
            simp [List.lookup, hb, ih hrest]

theorem processEntries_entry_valid (specs : List FieldSpec) (ig : Bool)
    {data out : List (String × Json)} {k : String} {v : Json} {s : FieldSpec}
    (h : processEntries specs ig data = some out)
    (hmem : (k, v) ∈ data) (hf : findSpec specs k = some s) :
    ∃ w, s.val v = some w := by
  induction data generalizing out with
  | nil => cases hmem
  | cons kv rest ih =>
    obtain ⟨k', v'⟩ := kv
    rw [processEntries] at h
    rcases List.mem_cons.mp hmem with heq | hmem'
    · injection heq with h1 h2
      subst h1
      subst h2
      simp only [hf] at h
      cases hv : s.val v with
      | none =>
        simp only [hv] at h
        exact Option.noConfusion h
      | some w => exact ⟨w, rfl⟩
    · cases hf' : findSpec specs k' with
      | none =>
        simp only [hf'] at h
        cases ig with
        | false => simp at h
        | true => exact ih (by simpa using h) hmem'
      | some s' =>
        simp only [hf'] at h
        cases hv : s'.val v' with
        | none =>
          simp only [hv] at h
          exact Option.noConfusion h
        | some w =>
          simp only [hv] at h
          cases hrest : processEntries specs ig rest with
          | none => rw [hrest] at h; cases h
          | some out' => exact ih hrest hmem'

theorem validateFields_eq_some {specs : List FieldSpec} {ig : Bool}
    {data out : List (String × Json)}
    (h : validateFields specs ig data = some out) :
    ∃ proc, processEntries specs ig data = some proc ∧
      out = proc ++ defaultsFor specs data := by
  unfold validateFields at h
  split at h
  · cases hp : processEntries specs ig data with
    | none => rw [hp] at h; cases h
    | some proc =>
      rw [hp] at h
      exact ⟨proc, rfl, by simpa using h.symm⟩
  · cases h

theorem lookup_none_of_keys {l : List (String × Json)} {k : String}
    (h : ∀ kv ∈ l, kv.1 ≠ k) : l.lookup k = none := by
  induction l with
  | nil => rfl
  | cons kv rest ih =>
    obtain ⟨k', v⟩ := kv
    have hk : k ≠ k' := Ne.symm (h (k', v) (List.mem_cons_self _ _))
    have hb : (k == k') = false := beq_eq_false_iff_ne.mpr hk
    simp only [List.lookup, hb]
    exact ih (fun kv hkv => h kv (List.mem_cons_of_mem _ hkv))

theorem processEntries_id (specs : List FieldSpec)
    {data out : List (String × Json)}
    (hid : ∀ s ∈ specs, ∀ v w, s.val v = some w → w = v)
    (h : processEntries specs false data = some out) : out = data := by
  induction data generalizing out with
  | nil =>
    obtain rfl : out = [] := by simpa [processEntries] using h.symm
    rfl
  | cons kv rest ih =>
    obtain ⟨k', v⟩ := kv
    rw [processEntries] at h
    cases hf' : findSpec specs k' with
    | none =>
      simp only [hf'] at h
      simp at h
    | some s =>
      simp only [hf'] at h
      cases hv : s.val v with
      | none =>
        simp only [hv] at h
        exact Option.noConfusion h
      | some w =>
        simp only [hv] at h
        cases hrest : processEntries specs false rest with
        | none => rw [hrest] at h; cases h
        | some out' =>
          rw [hrest] at h
          obtain rfl : out = (k', w) :: out' := by simpa using h.symm
          rw [hid s (List.mem_of_find?_eq_some hf') v w hv, ih hrest]

theorem defaultsFor_nil {specs : List FieldSpec}
    (hnd : ∀ s ∈ specs, s.dflt = none) (data : List (String × Json)) :
    defaultsFor specs data = [] := by
  rw [defaultsFor, List.filterMap_eq_nil_iff]
  intro s hs
  rw [hnd s hs]
  simp

theorem validateFields_id {specs : List FieldSpec}
    {data out : List (String × Json)}
    (hid : ∀ s ∈ specs, ∀ v w, s.val v = some w → w = v)
    (hnd : ∀ s ∈ specs, s.dflt = none)
    (h : validateFields specs false data = some out) : out = data := by
  obtain ⟨proc, hp, rfl⟩ := validateFields_eq_some h
  rw [defaultsFor_nil hnd, List.append_nil]
  exact processEntries_id specs hid hp

theorem dictV_id {specs : List FieldSpec}
    (hid : ∀ s ∈ specs, ∀ v w, s.val v = some w → w = v)
    (hnd : ∀ s ∈ specs, s.dflt = none) :
    ∀ v w, dictV specs false v = some w → w = v := by
  intro v w h
  cases v <;> simp [dictV] at h
  case obj kvs =>
    obtain ⟨out, hv, rfl⟩ := h
    rw [validateFields_id hid hnd hv]

theorem optMapList_id {f : Json → Option Json}
    (hf : ∀ v w, f v = some w → w = v) :
    ∀ {xs ys : List Json}, optMapList f xs = some ys → ys = xs := by
  intro xs
  induction xs with
  | nil =>
    intro ys h
    simpa [optMapList] using h.symm
  | cons x xs ih =>
    intro ys h
    rw [optMapList] at h
    cases hx : f x with
    | none =>
      simp only [hx] at h
      exact Option.noConfusion h
    | some y =>
      simp only [hx] at h
      cases hrest : optMapList f xs with
      | none => rw [hrest] at h; cases h
      | some ys' =>
        rw [hrest] at h
        obtain rfl : ys = y :: ys' := by simpa using h.symm
        rw [hf x y hx, ih hrest]

theorem listV_id {f : Json → Option Json}
    (hf : ∀ v w, f v = some w → w = v) :
    ∀ v w, listV f v = some w → w = v := by
  intro v w h
  cases v <;> simp [listV] at h
  case arr xs =>
    obtain ⟨ys, hy, rfl⟩ := h
    rw [optMapList_id hf hy]

theorem strV_id : ∀ v w, strV v = some w → w = v := by
  intro v w h
  cases v <;> simp [strV] at h
  case str s => exact h.symm

theorem nonEmptyStrV_id : ∀ v w, nonEmptyStrV v = some w → w = v := by
  intro v w h
  cases v <;> simp [nonEmptyStrV] at h
  case str s => exact h.2.symm

theorem constStrV_id (c : String) : ∀ v w, constStrV c v = some w → w = v := by
  intro v w h
  cases v <;> simp [constStrV] at h
  case str s => exact h.2.symm

theorem versionV_id : ∀ v w, versionV v = some w → w = v := by
  intro v w h
  cases v <;> simp [versionV] at h
  case str s => exact h.2.symm

theorem dictAnyV_id : ∀ v w, dictAnyV v = some w → w = v := by
  intro v w h
  cases v <;> simp [dictAnyV] at h
  case obj kvs => exact h.symm

theorem boolV_id : ∀ v w, boolV v = some w → w = v := by
  intro v w h
  cases v <;> simp [boolV] at h
  case bool b => exact h.symm

theorem lookup_preserved (specs : List FieldSpec)
    {data proc : List (String × Json)} (k : String) {s : FieldSpec}
    (hp : processEntries specs false data = some proc)
    (hf : findSpec specs k = some s)
    (hid : ∀ v w, s.val v = some w → w = v)
    (hdfl : (defaultsFor specs data).lookup k = none) :
    (proc ++ defaultsFor specs data).lookup k = data.lookup k := by
  rw [lookup_append, processEntries_lookup_found specs false hf hp]
  cases hl : data.lookup k with
  | none => simp [hdfl]
  | some v =>
    obtain ⟨w, hw⟩ := processEntries_entry_valid specs false hp (lookup_mem hl) hf
    simp [hw, hid v w hw]

theorem defaultsFor_base (data : List (String × Json)) :
    defaultsFor baseSpecs data =
      if (data.lookup "access").isSome then [] else [("access", accessDefault)] := by
  rw [defaultsFor]
  simp only [baseSpecs, mkReq, mkOpt, mkOptD, List.filterMap_cons, List.filterMap_nil]
  rw [covered_single]
  cases (data.lookup "access").isSome <;> simp

theorem defaultsFor_metadata (data : List (String × Json)) :
    defaultsFor metadataSpecs data =
      if (data.lookup "subjects").isSome then [] else [("subjects", .arr [])] := by
  rw [defaultsFor]
  simp only [metadataSpecs, mkReq, mkOpt, mkOptD, List.filterMap_cons, List.filterMap_nil]
  simp only [covered_single]
  cases (data.lookup "subjects").isSome <;> simp

theorem defaultsFor_access (data : List (String × Json)) :
    defaultsFor accessSpecs data =
      (if (data.lookup "files").isSome then [] else [("files", .str "public")]) ++
      (if (data.lookup "record").isSome then [] else [("record", .str "public")]) := by
  rw [defaultsFor]
  simp only [accessSpecs, mkReq, mkOpt, mkOptD, List.filterMap_cons, List.filterMap_nil]
  simp only [covered_single]
  cases (data.lookup "files").isSome <;> cases (data.lookup "record").isSome <;> simp

theorem findSpec_base_access :
    findSpec baseSpecs "access" =
      some (mkOptD "access" accessDefault (dictV accessSpecs false)) := rfl

theorem findSpec_base_custom :
    findSpec baseSpecs "custom_fields" =
      some (mkReq "custom_fields" (dictV customFieldsSpecs false)) := rfl

theorem findSpec_base_metadata :
    findSpec baseSpecs "metadata" = some (mkReq "metadata" metadata_schema) := rfl

theorem findSpec_md_title :
    findSpec metadataSpecs "title" = some (mkReq "title" nonEmptyStrV) := rfl

theorem findSpec_md_description :
    findSpec metadataSpecs "description" =
      some (mkReq "description" nonEmptyStrV) := rfl

theorem findSpec_md_creators :
    findSpec metadataSpecs "creators" =
      some (mkReq "creators" (listV creator_schema)) := rfl

theorem findSpec_md_rights :
    findSpec metadataSpecs "rights" =
      some (mkReq "rights" (listV (dictV rightsSpecs false))) := rfl

theorem findSpec_md_resource_type :
    findSpec metadataSpecs "resource_type" =
      some (mkReq "resource_type" (dictV resourceTypeSpecs false)) := rfl

theorem findSpec_md_subjects :
    findSpec metadataSpecs "subjects" =
      some (mkOptD "subjects" (.arr []) (listV (dictV subjectSpecs false))) := rfl

theorem findSpec_md_version :
    findSpec metadataSpecs "version" = some (mkReq "version" versionV) := rfl

theorem findSpec_access_files :
    findSpec accessSpecs "files" =
      some (mkOptD "files" (.str "public") (oneOfStrV ["public", "private"])) := rfl

theorem findSpec_access_record :
    findSpec accessSpecs "record" =
      some (mkOptD "record" (.str "public") (oneOfStrV ["public", "private"])) := rfl

theorem rights_id : ∀ v w, listV (dictV rightsSpecs false) v = some w → w = v := by
  refine listV_id (dictV_id ?_ ?_) <;> intro s hs
  · simp only [rightsSpecs, List.mem_singleton] at hs
    subst hs
    exact constStrV_id _
  · simp only [rightsSpecs, List.mem_singleton] at hs
    subst hs
    rfl

theorem resource_type_id :
    ∀ v w, dictV resourceTypeSpecs false v = some w → w = v := by
  refine dictV_id ?_ ?_ <;> intro s hs
  · simp only [resourceTypeSpecs, List.mem_singleton] at hs
    subst hs
    exact constStrV_id _
  · simp only [resourceTypeSpecs, List.mem_singleton] at hs
    subst hs
    rfl

theorem custom_fields_id :
    ∀ v w, dictV customFieldsSpecs false v = some w → w = v := by
  refine dictV_id ?_ ?_ <;> intro s hs
  · simp only [customFieldsSpecs, List.mem_singleton] at hs
    subst hs
    exact listV_id dictAnyV_id
  · simp only [customFieldsSpecs, List.mem_singleton] at hs
    subst hs
    rfl

/-- C2 (amended): for every metadata document accepted by the base
schema, the returned augmented document carries, when they were omitted
from the input, the default `{"files": "public", "record": "public"}`
for top-level `access`, the default `[]` for `metadata.subjects`, and the
default `"public"` for each of `access.files` and `access.record`; the
required fields `custom_fields`, `metadata.title`, `metadata.description`,
`metadata.rights`, `metadata.resource_type` and `metadata.version` are
returned unchanged from the input.  (`metadata.creators`, also required,
is not always unchanged: creator entries are validated with
`ignore_extra_keys=True`, which drops unrecognized creator keys, and DOI
identifiers are rewritten through `urlparse`/`urlunparse` — see the
counterexample.) -/
theorem base_schema_spec (doc : List (String × Json)) (out : Json)
    (h : base_schema (.obj doc) = some out) :
    ∃ outkvs, out = .obj outkvs ∧
      ((doc.lookup "access" = none →
        outkvs.lookup "access" = some accessDefault) ∧
       (∀ akvs, doc.lookup "access" = some (.obj akvs) →
         ∃ akvs', outkvs.lookup "access" = some (.obj akvs') ∧
           (akvs.lookup "files" = none →
             akvs'.lookup "files" = some (.str "public")) ∧
           (akvs.lookup "record" = none →
             akvs'.lookup "record" = some (.str "public"))) ∧
       (∀ mkvs, doc.lookup "metadata" = some (.obj mkvs) →
         ∃ mkvs', outkvs.lookup "metadata" = some (.obj mkvs') ∧
           (mkvs.lookup "subjects" = none →
             mkvs'.lookup "subjects" = some (.arr [])) ∧
           mkvs'.lookup "title" = mkvs.lookup "title" ∧
           mkvs'.lookup "description" = mkvs.lookup "description" ∧
           mkvs'.lookup "rights" = mkvs.lookup "rights" ∧
           mkvs'.lookup "resource_type" = mkvs.lookup "resource_type" ∧
           mkvs'.lookup "version" = mkvs.lookup "version") ∧
       outkvs.lookup "custom_fields" = doc.lookup "custom_fields") := by
  have h' : (validateFields baseSpecs false doc).map Json.obj = some out := h
  cases hv : validateFields baseSpecs false doc with
  | none => rw [hv] at h'; cases h'
  | some outkvs =>
    rw [hv] at h'
    obtain rfl : out = .obj outkvs := by simpa using h'.symm
    obtain ⟨proc, hp, rfl⟩ := validateFields_eq_some hv
    refine ⟨_, rfl, ?_, ?_, ?_, ?_⟩
    · -- access omitted: literal default inserted
      intro hno
      rw [lookup_append, processEntries_lookup_found baseSpecs false
        findSpec_base_access hp, hno, defaultsFor_base, hno]
      simp [List.lookup]
    · -- access present: inner files/record defaults
      intro akvs hacc
      obtain ⟨w, hw⟩ := processEntries_entry_valid baseSpecs false hp
        (lookup_mem hacc) findSpec_base_access
      have hw' : dictV accessSpecs false (.obj akvs) = some w := hw
      have hmap : (validateFields accessSpecs false akvs).map Json.obj = some w := hw'
      cases hva : validateFields accessSpecs false akvs with
      | none => rw [hva] at hmap; cases hmap
      | some akvs' =>
        rw [hva] at hmap
        obtain rfl : w = .obj akvs' := by simpa using hmap.symm
        obtain ⟨aproc, hap, rfl⟩ := validateFields_eq_some hva
        refine ⟨aproc ++ defaultsFor accessSpecs akvs, ?_, ?_, ?_⟩
        · rw [lookup_append, processEntries_lookup_found baseSpecs false
            findSpec_base_access hp, hacc]
          simp only [Option.some_bind, Option.or_eq_some]
          exact Or.inl hw
        · intro hnf
          rw [lookup_append, processEntries_lookup_found accessSpecs false
            findSpec_access_files hap, hnf, defaultsFor_access, hnf]
          simp [List.lookup]
        · intro hnr
          rw [lookup_append, processEntries_lookup_found accessSpecs false
            findSpec_access_record hap, hnr, defaultsFor_access, hnr]
          cases (akvs.lookup "files").isSome <;> simp [lookup_append, List.lookup]
    · -- metadata: subjects default and unchanged required sub-fields
      intro mkvs hmd
      obtain ⟨w, hw⟩ := processEntries_entry_valid baseSpecs false hp
        (lookup_mem hmd) findSpec_base_metadata
      have hw' : metadata_schema (.obj mkvs) = some w := hw
      have hmap : (validateFields metadataSpecs false mkvs).map Json.obj = some w := hw'
      cases hvm : validateFields metadataSpecs false mkvs with
      | none => rw [hvm] at hmap; cases hmap
      | some mkvs' =>
        rw [hvm] at hmap
        obtain rfl : w = .obj mkvs' := by simpa using hmap.symm
        obtain ⟨mproc, hmp, rfl⟩ := validateFields_eq_some hvm
        have hdfl : ∀ k : String, k ≠ "subjects" →
            (defaultsFor metadataSpecs mkvs).lookup k = none := by
          intro k hk
          rw [defaultsFor_metadata]
          have hb : (k == "subjects") = false := beq_eq_false_iff_ne.mpr hk
          cases (mkvs.lookup "subjects").isSome <;> simp [List.lookup, hb]
        refine ⟨mproc ++ defaultsFor metadataSpecs mkvs, ?_, ?_, ?_, ?_, ?_, ?_, ?_⟩
        · rw [lookup_append, processEntries_lookup_found baseSpecs false
            findSpec_base_metadata hp, hmd]
          simp only [Option.some_bind, Option.or_eq_some]
          exact Or.inl hw
        · intro hns
          rw [lookup_append, processEntries_lookup_found metadataSpecs false
            findSpec_md_subjects hmp, hns, defaultsFor_metadata, hns]
          simp [List.lookup]
        · exact lookup_preserved metadataSpecs "title" hmp findSpec_md_title
            nonEmptyStrV_id (hdfl "title" (by decide))
        · exact lookup_preserved metadataSpecs "description" hmp
            findSpec_md_description nonEmptyStrV_id (hdfl "description" (by decide))
        · exact lookup_preserved metadataSpecs "rights" hmp findSpec_md_rights
            rights_id (hdfl "rights" (by decide))
        · exact lookup_preserved metadataSpecs "resource_type" hmp
            findSpec_md_resource_type resource_type_id
            (hdfl "resource_type" (by decide))
        · exact lookup_preserved metadataSpecs "version" hmp findSpec_md_version
            versionV_id (hdfl "version" (by decide))
    · -- custom_fields unchanged
      have hdfl : (defaultsFor baseSpecs doc).lookup "custom_fields" = none := by
        rw [defaultsFor_base]
        cases (doc.lookup "access").isSome <;> simp [List.lookup]
      exact lookup_preserved baseSpecs "custom_fields" hp findSpec_base_custom
        custom_fields_id hdfl

/-- C2 (counterexample): a document whose (required) creator carries an
unrecognized extra key `nickname` is accepted, but the returned document
is not unchanged on the required fields — `creator_schema` has
`ignore_extra_keys=True`, so the key is dropped from
`metadata.creators`: the first creator's keys change from
`["person_or_org", "nickname"]` to `["person_or_org"]`. -/
theorem base_schema_changes_required_counterexample :
    (base_schema (.obj
      [("custom_fields", .obj [("dsmd", .arr [])]),
       ("metadata", .obj
         [("title", .str "t"), ("description", .str "d"),
          ("creators", .arr
            [.obj [("person_or_org",
                .obj [("name", .str "Ada"), ("type", .str "personal")]),
              ("nickname", .str "x")]]),
          ("rights", .arr [.obj [("id", .str "cc-by-4.0")]]),
          ("resource_type", .obj [("id", .str "model")]),
          ("version", .str "v1")])])).isSome = true ∧
    (base_schema (.obj
      [("custom_fields", .obj [("dsmd", .arr [])]),
       ("metadata", .obj
         [("title", .str "t"), ("description", .str "d"),
          ("creators", .arr
            [.obj [("person_or_org",
                .obj [("name", .str "Ada"), ("type", .str "personal")]),
              ("nickname", .str "x")]]),
          ("rights", .arr [.obj [("id", .str "cc-by-4.0")]]),
          ("resource_type", .obj [("id", .str "model")]),
          ("version", .str "v1")])])).map firstCreatorKeys ≠
      some (firstCreatorKeys (.obj
      [("custom_fields", .obj [("dsmd", .arr [])]),
       ("metadata", .obj
         [("title", .str "t"), ("description", .str "d"),
          ("creators", .arr
            [.obj [("person_or_org",
                .obj [("name", .str "Ada"), ("type", .str "personal")]),
              ("nickname", .str "x")]]),
          ("rights", .arr [.obj [("id", .str "cc-by-4.0")]]),
          ("resource_type", .obj [("id", .str "model")]),
          ("version", .str "v1")])])) := by
  refine ⟨rfl, fun h => ?_⟩
  have h1 : some ["person_or_org"] = some ["person_or_org", "nickname"] := by
    exact (by rfl : some ["person_or_org"] = _).trans (h.trans (by rfl))
  simp at h1

/-- C2 (witness): the minimal valid document omitting `access` and
`subjects` validates, and the result carries the documented defaults with
`title` unchanged. -/
theorem base_schema_spec_witness :
    ∃ outkvs, base_schema (.obj
        [("custom_fields", .obj [("dsmd", .arr [])]),
         ("metadata", .obj
           [("title", .str "t"), ("description", .str "d"),
            ("creators", .arr []), ("rights", .arr []),
            ("resource_type", .obj [("id", .str "model")]),
            ("version", .str "v1")])]) = some (.obj outkvs) ∧
      outkvs.lookup "access" = some accessDefault ∧
      ∃ mkvs', outkvs.lookup "metadata" = some (.obj mkvs') ∧
        mkvs'.lookup "subjects" = some (.arr []) ∧
        mkvs'.lookup "title" = some (.str "t") := by
  obtain ⟨outkvs, hout, hacc, _, hmd, _⟩ := base_schema_spec
    [("custom_fields", .obj [("dsmd", .arr [])]),
     ("metadata", .obj
       [("title", .str "t"), ("description", .str "d"),
        ("creators", .arr []), ("rights", .arr []),
        ("resource_type", .obj [("id", .str "model")]),
        ("version", .str "v1")])] _ rfl
  obtain ⟨mkvs', hml, hsub, htitle, -⟩ := hmd
    [("title", .str "t"), ("description", .str "d"),
     ("creators", .arr []), ("rights", .arr []),
     ("resource_type", .obj [("id", .str "model")]),
     ("version", .str "v1")] rfl
  refine ⟨outkvs, by rw [← hout]; rfl, hacc rfl, mkvs', hml, hsub rfl, ?_⟩
  rw [htitle]
  rfl

theorem findSpec_base_community :
    findSpec baseSpecs "community" = some (mkOpt "community" uuidRegexV) := rfl

theorem validateFields_covered {specs : List FieldSpec} {ig : Bool}
    {data out : List (String × Json)}
    (h : validateFields specs ig data = some out) :
    specs.all (fun s => !s.required || coveredKeys data s) = true := by
  unfold validateFields at h
  split at h
  next hc => exact hc
  next => cases h

theorem coveredKeys_append (data l : List (String × Json)) (s : FieldSpec) :
    coveredKeys (data ++ l) s = (coveredKeys data s || coveredKeys l s) := by
  simp [coveredKeys, List.any_append]

theorem all_covered_append {specs : List FieldSpec}
    {data : List (String × Json)} (l : List (String × Json))
    (h : specs.all (fun s => !s.required || coveredKeys data s) = true) :
    specs.all (fun s => !s.required || coveredKeys (data ++ l) s) = true := by
  rw [List.all_eq_true] at h ⊢
  intro s hs
  have hsp := h s hs
  cases hr : s.required with
  | false => simp [hr]
  | true =>
    rw [hr] at hsp
    simp only [Bool.not_true, Bool.false_or] at hsp ⊢
    rw [coveredKeys_append, hsp]
    rfl

theorem processEntries_append_one (specs : List FieldSpec) (ig : Bool)
    {data proc : List (String × Json)} {k : String} {v w : Json}
    {sp : FieldSpec} (hp : processEntries specs ig data = some proc)
    (hf : findSpec specs k = some sp) (hv : sp.val v = some w) :
    processEntries specs ig (data ++ [(k, v)]) = some (proc ++ [(k, w)]) := by
  induction data generalizing proc with
  | nil =>
    obtain rfl : proc = [] := by simpa [processEntries] using hp.symm
    simp only [List.nil_append, processEntries, hf, hv]
    rfl
  | cons kv rest ih =>
    obtain ⟨k1, v1⟩ := kv
    rw [processEntries] at hp
    rw [List.cons_append, processEntries]
    cases hf1 : findSpec specs k1 with
    | none =>
      simp only [hf1] at hp ⊢
      cases ig with
      | false => simp at hp
      | true =>
        simp only [if_pos rfl] at hp ⊢
        exact ih hp
    | some s1 =>
      simp only [hf1] at hp ⊢
      cases hv1 : s1.val v1 with
      | none =>
        simp only [hv1] at hp
        exact Option.noConfusion hp
      | some w1 =>
        simp only [hv1] at hp ⊢
        cases hrest : processEntries specs ig rest with
        | none => rw [hrest] at hp; cases hp
        | some proc1 =>
          rw [hrest] at hp
          obtain rfl : proc = (k1, w1) :: proc1 := by simpa using hp.symm
          rw [ih hrest]
          rfl

/-- C8 (amended): a document accepted by the base schema can carry a
`community` string only when `re.search` finds in it a match of
`UUID_RE = \d{8}-(\d{4}-){3}\d{12}` — decimal digits only; and
conversely every document valid without a community remains valid when a
community string containing such a match is added.  So decimal-shaped
strings like `"12345678-1234-1234-1234-123456789012"` are accepted and
hex-lettered UUIDs are rejected. -/
theorem base_schema_community_uuid (doc : List (String × Json)) (out : Json)
    (s : String) :
    (base_schema (.obj doc) = some out →
      doc.lookup "community" = some (.str s) → uuidSearch s = true) ∧
    (base_schema (.obj doc) = some out → doc.lookup "community" = none →
      uuidSearch s = true →
      ∃ outc, base_schema (.obj (doc ++ [("community", .str s)])) = some outc) := by
  constructor
  · intro h hc
    have h' : (validateFields baseSpecs false doc).map Json.obj = some out := h
    cases hv : validateFields baseSpecs false doc with
    | none => rw [hv] at h'; cases h'
    | some outkvs =>
      obtain ⟨proc, hp, _⟩ := validateFields_eq_some hv
      obtain ⟨w, hw⟩ := processEntries_entry_valid baseSpecs false hp
        (lookup_mem hc) findSpec_base_community
      have hw' : uuidRegexV (.str s) = some w := hw
      by_cases hu : uuidSearch s = true
      · exact hu
      · simp only [uuidRegexV, if_neg hu] at hw'
        exact Option.noConfusion hw'
  · intro h hnone hu
    have h' : (validateFields baseSpecs false doc).map Json.obj = some out := h
    cases hv : validateFields baseSpecs false doc with
    | none => rw [hv] at h'; cases h'
    | some outkvs =>
      obtain ⟨proc, hp, _⟩ := validateFields_eq_some hv
      have hval : (mkOpt "community" uuidRegexV).val (.str s) = some (.str s) := by
        show uuidRegexV (.str s) = some (.str s)
        rw [uuidRegexV, if_pos hu]
      have hpe := processEntries_append_one baseSpecs false hp
        findSpec_base_community hval
      have hcov := all_covered_append [("community", Json.str s)]
        (validateFields_covered hv)
      refine ⟨.obj ((proc ++ [("community", .str s)]) ++
        defaultsFor baseSpecs (doc ++ [("community", .str s)])), ?_⟩
      show (validateFields baseSpecs false
        (doc ++ [("community", .str s)])).map Json.obj = _
      rw [validateFields, if_pos hcov, hpe]
      rfl

/-- C8 (witness): both directions at concrete inputs — the accepted
document carrying the decimal UUID-shaped community satisfies the regex,
and the minimal valid document stays valid once that community string is
added. -/
theorem base_schema_community_uuid_witness :
    uuidSearch "12345678-1234-1234-1234-123456789012" = true ∧
    ∃ outc, base_schema (.obj
      ([("custom_fields", .obj [("dsmd", .arr [])]),
        ("metadata", .obj
          [("title", .str "t"), ("description", .str "d"),
           ("creators", .arr []), ("rights", .arr []),
           ("resource_type", .obj [("id", .str "model")]),
           ("version", .str "v1")])] ++
       [("community", .str "12345678-1234-1234-1234-123456789012")])) =
      some outc := by
  constructor
  · exact (base_schema_community_uuid
      [("custom_fields", .obj [("dsmd", .arr [])]),
       ("metadata", .obj
         [("title", .str "t"), ("description", .str "d"),
          ("creators", .arr []), ("rights", .arr []),
          ("resource_type", .obj [("id", .str "model")]),
          ("version", .str "v1")]),
       ("community", .str "12345678-1234-1234-1234-123456789012")] _
      "12345678-1234-1234-1234-123456789012").1 rfl rfl
  · exact (base_schema_community_uuid
      [("custom_fields", .obj [("dsmd", .arr [])]),
       ("metadata", .obj
         [("title", .str "t"), ("description", .str "d"),
          ("creators", .arr []), ("rights", .arr []),
          ("resource_type", .obj [("id", .str "model")]),
          ("version", .str "v1")])] _
      "12345678-1234-1234-1234-123456789012").2 rfl rfl rfl

/-- C8 (counterexample): the hex-lettered UUID-shaped string of the
claim, `"123e4567-e89b-12d3-a456-426614174000"`, is rejected by the base
schema (its community pattern `\d{8}-(\d{4}-){3}\d{12}` accepts decimal
digits only), although the same document with a decimal-digit community
string validates. -/
theorem base_schema_hex_uuid_counterexample :
    base_schema (.obj
      [("custom_fields", .obj [("dsmd", .arr [])]),
       ("metadata", .obj
         [("title", .str "t"), ("description", .str "d"),
          ("creators", .arr []), ("rights", .arr []),
          ("resource_type", .obj [("id", .str "model")]),
          ("version", .str "v1")]),
       ("community", .str "123e4567-e89b-12d3-a456-426614174000")]) = none ∧
    (base_schema (.obj
      [("custom_fields", .obj [("dsmd", .arr [])]),
       ("metadata", .obj
         [("title", .str "t"), ("description", .str "d"),
          ("creators", .arr []), ("rights", .arr []),
          ("resource_type", .obj [("id", .str "model")]),
          ("version", .str "v1")]),
       ("community", .str "12345678-1234-1234-1234-123456789012")])).isSome
      = true :=
  ⟨rfl, rfl⟩

/-- C4: the identifier schema accepts
`{"scheme": "orcid", "identifier": "0000-0002-1825-0097"}` unchanged,
rejects `{"identifier": "0000-0002-1825-009"}` (wrong digit count and not
an absolute URL, no scheme), and accepts
`{"identifier": "https://doi.org/10.1000/182"}` augmented with
`scheme: "doi"`. -/
theorem id_schema_examples :
    id_schema false (.obj [("scheme", .str "orcid"),
        ("identifier", .str "0000-0002-1825-0097")]) =
      some (.obj [("scheme", .str "orcid"),
        ("identifier", .str "0000-0002-1825-0097")]) ∧
    id_schema false (.obj [("identifier", .str "0000-0002-1825-009")]) =
      none ∧
    id_schema false (.obj [("identifier", .str "https://doi.org/10.1000/182")]) =
      some (.obj [("identifier", .str "https://doi.org/10.1000/182"),
        ("scheme", .str "doi")]) :=
  ⟨rfl, rfl, rfl⟩

theorem takeDigits_of_digits :
    ∀ {n : Nat} {d r : List Char}, d.length = n → (∀ c ∈ d, c.isDigit = true) →
      takeDigits n (d ++ r) = some r := by
  intro n
  induction n with
  | zero =>
    intro d r hlen _
    obtain rfl := List.length_eq_zero.mp hlen
    rfl
  | succ n ih =>
    intro d r hlen hdig
    cases d with
    | nil => simp at hlen
    | cons c d' =>
      simp only [List.cons_append, takeDigits]
      rw [if_pos (hdig c (List.mem_cons_self _ _))]
      exact ih (by simpa using hlen) (fun c' hc' => hdig c' (List.mem_cons_of_mem _ hc'))

theorem expectChar_cons (c : Char) (l : List Char) :
    expectChar c (c :: l) = some l := by
  simp [expectChar]

theorem matchOrcidAt_concat (d1 d2 d3 d4 r : List Char)
    (h1 : d1.length = 4) (hd1 : ∀ c ∈ d1, c.isDigit = true)
    (h2 : d2.length = 4) (hd2 : ∀ c ∈ d2, c.isDigit = true)
    (h3 : d3.length = 4) (hd3 : ∀ c ∈ d3, c.isDigit = true)
    (h4 : d4.length = 4) (hd4 : ∀ c ∈ d4, c.isDigit = true) :
    matchOrcidAt
      (d1 ++ '-' :: (d2 ++ '-' :: (d3 ++ '-' :: (d4 ++ r)))) = true := by
  rw [matchOrcidAt, takeDigits_of_digits h1 hd1, Option.some_bind, expectChar_cons,
    Option.some_bind, takeDigits_of_digits h2 hd2, Option.some_bind, expectChar_cons,
    Option.some_bind, takeDigits_of_digits h3 hd3, Option.some_bind, expectChar_cons,
    Option.some_bind, show d4 ++ r = d4 ++ r ++ [] by simp]
  rw [show d4 ++ r ++ [] = d4 ++ (r ++ []) from List.append_assoc d4 r []]
  rw [takeDigits_of_digits h4 hd4]
  rfl

/-- C10: the ORCID pattern is matched with `re.search`, hence unanchored:
any identifier string containing four dash-separated groups of four
digits as a substring validates under the ORCID branch of the identifier
schema (and is returned unchanged), whatever surrounds the match. -/
theorem orcid_regex_unanchored (pre d1 d2 d3 d4 post : String)
    (h1 : d1.toList.length = 4) (hd1 : ∀ c ∈ d1.toList, c.isDigit = true)
    (h2 : d2.toList.length = 4) (hd2 : ∀ c ∈ d2.toList, c.isDigit = true)
    (h3 : d3.toList.length = 4) (hd3 : ∀ c ∈ d3.toList, c.isDigit = true)
    (h4 : d4.toList.length = 4) (hd4 : ∀ c ∈ d4.toList, c.isDigit = true) :
    id_schema false (.obj [("scheme", .str "orcid"),
      ("identifier",
        .str (pre ++ d1 ++ "-" ++ d2 ++ "-" ++ d3 ++ "-" ++ d4 ++ post))]) =
      some (.obj [("scheme", .str "orcid"),
        ("identifier",
          .str (pre ++ d1 ++ "-" ++ d2 ++ "-" ++ d3 ++ "-" ++ d4 ++ post))]) := by
  set s := pre ++ d1 ++ "-" ++ d2 ++ "-" ++ d3 ++ "-" ++ d4 ++ post with hs
  have hcore : s.toList = pre.toList ++
      (d1.toList ++ '-' :: (d2.toList ++ '-' :: (d3.toList ++ '-' ::
        (d4.toList ++ post.toList)))) := by
    rw [hs]
    show (pre ++ d1 ++ "-" ++ d2 ++ "-" ++ d3 ++ "-" ++ d4 ++ post).data = _
    simp only [String.data_append, List.append_assoc]
    rfl
  have hsearch : orcidSearch s = true := by
    rw [orcidSearch, reSearch, List.any_eq_true]
    refine ⟨d1.toList ++ '-' :: (d2.toList ++ '-' :: (d3.toList ++ '-' ::
      (d4.toList ++ post.toList))), ?_, ?_⟩
    · rw [List.mem_tails, hcore]
      exact List.suffix_append _ _
    · exact matchOrcidAt_concat _ _ _ _ _ h1 hd1 h2 hd2 h3 hd3 h4 hd4
  have hid : orcidIdentifierV (.str s) = some (.str s) := by
    rw [orcidIdentifierV]
    rw [if_pos hsearch]
  have hd : dictV orcidIdSpecs false
      (.obj [("scheme", .str "orcid"), ("identifier", .str s)]) =
      some (.obj [("scheme", .str "orcid"), ("identifier", .str s)]) := by
    simp [dictV, validateFields, processEntries, findSpec, orcidIdSpecs, mkReq,
      coveredKeys, defaultsFor, constStrV, hid]
  simp only [id_schema, hd]

/-- C10 (witness): `"x0000-0002-1825-0097y"` — the ORCID pattern as a
strict substring — validates under scheme `"orcid"`. -/
theorem orcid_regex_unanchored_witness :
    id_schema false (.obj [("scheme", .str "orcid"),
        ("identifier", .str "x0000-0002-1825-0097y")]) =
      some (.obj [("scheme", .str "orcid"),
        ("identifier", .str "x0000-0002-1825-0097y")]) := by
  have h := orcid_regex_unanchored "x" "0000" "0002" "1825" "0097" "y"
    (by decide) (by decide) (by decide) (by decide)
    (by decide) (by decide) (by decide) (by decide)
  exact h
